import Mathlib

/-!
Shallow embedding of the rmt-coffee-amag Telegram study bot.

The repository keeps two mutable in-memory stores:
* a session manager (`sessionManager.js`, `src/unnamed/part_019`) mapping a
  user id to an in-progress study session, and
* a quiz module (`src/quiz.js`) mapping a user id to a question-authoring
  draft plus a map of published questions.

JavaScript `Map` objects are embedded as association lists with JS `Map`
semantics (`set` replaces in place, `delete` removes the entry, iteration is
in insertion order).  Timestamps are milliseconds, embedded as `Int`;
`moment#diff(‹t›, 'minutes')` truncates toward zero, embedded as `Int.tdiv`.
-/

namespace StudyBot

/-! ## JavaScript `Map` as an association list -/

section JsMap

variable {κ : Type} [DecidableEq κ] {α : Type}

/-- `Map#get`: first binding of the key, if any. -/
def jsGet (k : κ) : List (κ × α) → Option α
  | [] => none
  | (k', v) :: rest => if k' = k then some v else jsGet k rest

/-- `Map#set`: replace the binding in place, or append a fresh one. -/
def jsSet (k : κ) (v : α) : List (κ × α) → List (κ × α)
  | [] => [(k, v)]
  | (k', v') :: rest => if k' = k then (k, v) :: rest else (k', v') :: jsSet k v rest

/-- `Map#delete`: remove the binding of the key. -/
def jsDel (k : κ) : List (κ × α) → List (κ × α)
  | [] => []
  | (k', v) :: rest => if k' = k then rest else (k', v) :: jsDel k rest

/-- The representation invariant of a JS `Map`: keys are not duplicated. -/
def keysNodup (m : List (κ × α)) : Prop := (m.map Prod.fst).Nodup

theorem jsGet_set_self (k : κ) (v : α) (m : List (κ × α)) :
    jsGet k (jsSet k v m) = some v := by
  induction m with
  | nil => simp [jsSet, jsGet]
  | cons p rest ih =>
    obtain ⟨k', v'⟩ := p
    by_cases hk : k' = k
    · simp [jsSet, hk, jsGet]
    · simp [jsSet, hk, jsGet, ih]

theorem jsGet_set_ne (k k' : κ) (v : α) (m : List (κ × α)) (hne : k' ≠ k) :
    jsGet k (jsSet k' v m) = jsGet k m := by
  induction m with
  | nil => simp [jsSet, jsGet, hne]
  | cons p rest ih =>
    obtain ⟨k₀, v₀⟩ := p
    by_cases hk : k₀ = k'
    · subst hk
      simp [jsSet, jsGet, hne]
    · by_cases hk2 : k₀ = k
      · simp [jsSet, hk, jsGet, hk2, Ne.symm hne]
      · simp [jsSet, hk, jsGet, hk2, ih]

theorem jsGet_del_self (k : κ) (m : List (κ × α)) (h : keysNodup m) :
    jsGet k (jsDel k m) = none := by
  induction m with
  | nil => simp [jsDel, jsGet]
  | cons p rest ih =>
    obtain ⟨k₀, v₀⟩ := p
    simp only [keysNodup, List.map_cons, List.nodup_cons] at h
    by_cases hk : k₀ = k
    · subst hk
      simp only [jsDel, if_pos rfl]
      -- the key does not occur in `rest`, so lookup fails
      clear ih
      induction rest with
      | nil => simp [jsGet]
      | cons q tail ih2 =>
        obtain ⟨k₁, v₁⟩ := q
        simp only [List.map_cons, List.mem_cons, List.nodup_cons] at h
        have hne : k₁ ≠ k₀ := fun he => h.1 (Or.inl he.symm)
        simp only [jsGet, if_neg hne]
        exact ih2 ⟨fun hm => h.1 (Or.inr hm), h.2.2⟩
    · simp only [jsDel, if_neg hk, jsGet, if_neg hk]
      exact ih h.2

theorem jsGet_del_ne (k k' : κ) (m : List (κ × α)) (hne : k' ≠ k) :
    jsGet k (jsDel k' m) = jsGet k m := by
  induction m with
  | nil => simp [jsDel, jsGet]
  | cons p rest ih =>
    obtain ⟨k₀, v₀⟩ := p
    by_cases hk : k₀ = k'
    · subst hk
      have : k₀ ≠ k := hne
      simp [jsDel, jsGet, this]
    · simp [jsDel, hk, jsGet, ih]

theorem mem_keys_jsSet (k k₀ : κ) (v : α) (m : List (κ × α)) :
    k₀ ∈ (jsSet k v m).map Prod.fst ↔ k₀ = k ∨ k₀ ∈ m.map Prod.fst := by
  induction m with
  | nil => simp [jsSet]
  | cons p rest ih =>
    obtain ⟨k₁, v₁⟩ := p
    by_cases hk : k₁ = k
    · subst hk
      simp [jsSet]
    · simp only [jsSet, if_neg hk, List.map_cons, List.mem_cons, ih]
      tauto

theorem mem_keys_jsDel (k k₀ : κ) (m : List (κ × α)) :
    k₀ ∈ (jsDel k m).map Prod.fst → k₀ ∈ m.map Prod.fst := by
  induction m with
  | nil => simp [jsDel]
  | cons p rest ih =>
    obtain ⟨k₁, v₁⟩ := p
    by_cases hk : k₁ = k
    · subst hk
      simp only [jsDel, if_pos rfl, List.map_cons, List.mem_cons]
      exact fun h => Or.inr h
    · simp only [jsDel, if_neg hk, List.map_cons, List.mem_cons]
      rintro (h | h)
      · exact Or.inl h
      · exact Or.inr (ih h)

theorem keysNodup_set (k : κ) (v : α) (m : List (κ × α)) (h : keysNodup m) :
    keysNodup (jsSet k v m) := by
  induction m with
  | nil => simp [jsSet, keysNodup]
  | cons p rest ih =>
    obtain ⟨k₀, v₀⟩ := p
    simp only [keysNodup, List.map_cons, List.nodup_cons] at h
    by_cases hk : k₀ = k
    · subst hk
      simpa [jsSet, keysNodup] using h
    · have hrest := ih h.2
      simp only [jsSet, if_neg hk, keysNodup, List.map_cons, List.nodup_cons]
      refine ⟨?_, hrest⟩
      intro hmem
      rcases (mem_keys_jsSet k k₀ v rest).1 hmem with h1 | h1
      · exact hk h1
      · exact h.1 h1

theorem keysNodup_del (k : κ) (m : List (κ × α)) (h : keysNodup m) :
    keysNodup (jsDel k m) := by
  induction m with
  | nil => simpa [jsDel] using h
  | cons p rest ih =>
    obtain ⟨k₀, v₀⟩ := p
    simp only [keysNodup, List.map_cons, List.nodup_cons] at h
    by_cases hk : k₀ = k
    · simpa [jsDel, hk, keysNodup] using h.2
    · simp only [jsDel, if_neg hk, keysNodup, List.map_cons, List.nodup_cons]
      exact ⟨fun hmem => h.1 (mem_keys_jsDel k k₀ rest hmem), ih h.2⟩

theorem jsGet_mem (k : κ) (v : α) (m : List (κ × α)) (h : jsGet k m = some v) :
    (k, v) ∈ m := by
  induction m with
  | nil => simp [jsGet] at h
  | cons q rest ih =>
    obtain ⟨k₀, v₀⟩ := q
    simp only [jsGet] at h
    by_cases hk : k₀ = k
    · rw [if_pos hk] at h
      subst hk
      obtain rfl : v₀ = v := by injection h
      exact List.mem_cons_self _ _
    · rw [if_neg hk] at h
      exact List.mem_cons_of_mem _ (ih h)

theorem mem_jsSet (k : κ) (v : α) (m : List (κ × α)) (p : κ × α)
    (h : p ∈ jsSet k v m) : p = (k, v) ∨ p ∈ m := by
  induction m with
  | nil => simpa [jsSet] using h
  | cons q rest ih =>
    obtain ⟨k₀, v₀⟩ := q
    by_cases hk : k₀ = k
    · subst hk
      rcases (by simpa [jsSet] using h : p = (k₀, v) ∨ p ∈ rest) with h1 | h1
      · exact Or.inl h1
      · exact Or.inr (by simp [h1])
    · rcases (by simpa [jsSet, hk] using h : p = (k₀, v₀) ∨ p ∈ jsSet k v rest) with h1 | h1
      · exact Or.inr (by simp [h1])
      · rcases ih h1 with h2 | h2
        · exact Or.inl h2
        · exact Or.inr (by simp [h2])

theorem mem_jsDel (k : κ) (m : List (κ × α)) (p : κ × α)
    (h : p ∈ jsDel k m) : p ∈ m := by
  induction m with
  | nil => simp [jsDel] at h
  | cons q rest ih =>
    obtain ⟨k₀, v₀⟩ := q
    by_cases hk : k₀ = k
    · subst hk
      simp only [jsDel, if_pos rfl] at h
      exact List.mem_cons_of_mem _ h
    · rcases (by simpa [jsDel, hk] using h : p = (k₀, v₀) ∨ p ∈ jsDel k rest) with h1 | h1
      · simp [h1]
      · exact List.mem_cons_of_mem _ (ih h1)

end JsMap

/-! ## Time arithmetic

`moment#diff(other, 'minutes')` computes the difference in milliseconds and
truncates toward zero; `Math.round(x)` is `⌊x + 1/2⌋`. -/

/-- `later.diff(earlier, 'minutes')`: millisecond difference truncated toward
zero to whole minutes. -/
def diffMinutes (later earlier : Int) : Int := (later - earlier).tdiv 60000

/-- `Math.round(num/den)` for `den > 0`, computed exactly: `⌊num/den + 1/2⌋`. -/
def jsRound (num den : Int) : Int := Int.fdiv (2 * num + den) (2 * den)

/-! ## Session manager (`sessionManager.js`, `src/unnamed/part_019`)

One completed break, as pushed by `endBreak`.  The JS field `end` is a Lean
keyword, so it is embedded as `stop`. -/

structure BreakRec where
  start : Int
  stop : Int
  duration : Int
  deriving Repr, DecidableEq

/-- One active study session (`activeSessions` map value).  The JS `messages`
field (message ids cleaned up on the next session) is irrelevant to the
session arithmetic and carried verbatim. -/
structure StudySession where
  subject : String
  status : String
  startTime : Int
  goalTimeMinutes : Nat
  breaks : List BreakRec
  currentBreak : Option Int
  totalBreakMinutes : Int
  messages : List Nat
  deriving Repr, DecidableEq

/-- The `activeSessions` map, keyed by user id. -/
abbrev SessionStore : Type := List (Nat × StudySession)

/-- The stats snapshot returned by `endSession` / `getCurrentStats`. -/
structure SessionStats where
  subject : String
  goalTime : Nat
  actualTime : Int
  breakTime : Int
  totalTime : Int
  startTime : Int
  endTime : Int
  percentage : Int
  deriving Repr, DecidableEq

namespace SessionManager

/-- `startSession(userId, subject, goalTimeMinutes = 0)`. -/
def startSession (userId : Nat) (subject : String) (goalTimeMinutes : Nat)
    (now : Int) (store : SessionStore) : SessionStore :=
  jsSet userId
    { subject := subject
      status := "studying"
      startTime := now
      goalTimeMinutes := goalTimeMinutes
      breaks := []
      currentBreak := none
      totalBreakMinutes := 0
      messages := [] } store

/-- `calculateStudyTime(session, endTime)`. -/
def calculateStudyTime (session : StudySession) (endTime : Int) : Int :=
  diffMinutes endTime session.startTime - session.totalBreakMinutes

/-- `endSession(userId)`: returns the stats snapshot and the updated store. -/
def endSession (userId : Nat) (now : Int) (store : SessionStore) :
    Option SessionStats × SessionStore :=
  match jsGet userId store with
  | some session =>
      let totalStudyMinutes := calculateStudyTime session now
      (some { subject := session.subject
              goalTime := session.goalTimeMinutes
              actualTime := totalStudyMinutes
              breakTime := session.totalBreakMinutes
              totalTime := totalStudyMinutes + session.totalBreakMinutes
              startTime := session.startTime
              endTime := now
              percentage :=
                if session.goalTimeMinutes ≠ 0 then
                  jsRound (totalStudyMinutes * 100) (session.goalTimeMinutes : Int)
                else 100 },
       jsDel userId store)
  | none => (none, store)

/-- `startBreak(userId)`. -/
def startBreak (userId : Nat) (now : Int) (store : SessionStore) : SessionStore :=
  match jsGet userId store with
  | some session =>
      if session.status = "studying" then
        jsSet userId { session with status := "break", currentBreak := some now } store
      else store
  | none => store

/-- `endBreak(userId)`.  The JS guard `session.currentBreak` is truthiness of
the moment object, i.e. `currentBreak ≠ null`. -/
def endBreak (userId : Nat) (now : Int) (store : SessionStore) : SessionStore :=
  match jsGet userId store with
  | some session =>
      if session.status = "break" then
        match session.currentBreak with
        | some breakStart =>
            let breakMinutes := diffMinutes now breakStart
            jsSet userId
              { session with
                totalBreakMinutes := session.totalBreakMinutes + breakMinutes
                breaks := session.breaks ++
                  [{ start := breakStart, stop := now, duration := breakMinutes }]
                currentBreak := none
                status := "studying" } store
        | none => store
      else store
  | none => store

/-- `updateSessionStatus(userId, status)`. -/
def updateSessionStatus (userId : Nat) (status : String) (store : SessionStore) :
    SessionStore :=
  match jsGet userId store with
  | some session => jsSet userId { session with status := status } store
  | none => store

/-- `setGoalTime(userId, minutes)`. -/
def setGoalTime (userId : Nat) (minutes : Nat) (store : SessionStore) : SessionStore :=
  match jsGet userId store with
  | some session => jsSet userId { session with goalTimeMinutes := minutes } store
  | none => store

end SessionManager

/-! ## C1: `endSession` snapshot, removal, and idempotence -/

/-- **C1.** For every user with an active session, `endSession(userId)` returns
a stats snapshot with `actualStudyMinutes = (now - startTime) - totalBreakMinutes`
and `percent = goalMinutes > 0 ? round(actualStudyMinutes/goalMinutes*100) : 100`,
and removes the session from the store, so that an immediately following second
call finds no session and returns null; for a user with no active session,
`endSession` returns null and changes nothing. -/
theorem endSession_snapshot_removal_idempotence (userId : Nat) (now now2 : Int)
    (store : SessionStore) (hnd : keysNodup store) :
    (∀ s, jsGet userId store = some s →
      (SessionManager.endSession userId now store).1 = some
        { subject := s.subject
          goalTime := s.goalTimeMinutes
          actualTime := diffMinutes now s.startTime - s.totalBreakMinutes
          breakTime := s.totalBreakMinutes
          totalTime := (diffMinutes now s.startTime - s.totalBreakMinutes) +
            s.totalBreakMinutes
          startTime := s.startTime
          endTime := now
          percentage :=
            if 0 < s.goalTimeMinutes then
              jsRound ((diffMinutes now s.startTime - s.totalBreakMinutes) * 100)
                (s.goalTimeMinutes : Int)
            else 100 }
      ∧ (SessionManager.endSession userId now store).2 = jsDel userId store
      ∧ jsGet userId (SessionManager.endSession userId now store).2 = none
      ∧ SessionManager.endSession userId now2 (SessionManager.endSession userId now store).2 =
          (none, (SessionManager.endSession userId now store).2))
    ∧ (jsGet userId store = none →
        SessionManager.endSession userId now store = (none, store)) := by
  constructor
  · intro s hs
    have hdel : jsGet userId (jsDel userId store) = none := jsGet_del_self userId store hnd
    refine ⟨?_, ?_, ?_, ?_⟩
    · simp only [SessionManager.endSession, hs, SessionManager.calculateStudyTime]
      have hif : (if s.goalTimeMinutes ≠ 0 then
            jsRound ((diffMinutes now s.startTime - s.totalBreakMinutes) * 100)
              (s.goalTimeMinutes : Int)
          else 100) = (if 0 < s.goalTimeMinutes then
            jsRound ((diffMinutes now s.startTime - s.totalBreakMinutes) * 100)
              (s.goalTimeMinutes : Int)
          else 100) := by
        by_cases h : s.goalTimeMinutes = 0 <;> simp [h, Nat.pos_of_ne_zero]
      rw [hif]
    · simp [SessionManager.endSession, hs]
    · simpa [SessionManager.endSession, hs] using hdel
    · have h2 : (SessionManager.endSession userId now store).2 = jsDel userId store := by
        simp [SessionManager.endSession, hs]
      rw [h2]
      simp [SessionManager.endSession, hdel]
  · intro hs
    simp [SessionManager.endSession, hs]

/-- Witness for C1 at a concrete input: a one-hour goal session started at
time 0, ended 90 minutes later (no breaks), then ended again. -/
theorem endSession_snapshot_removal_idempotence_witness :
    (∀ s, jsGet 1 (SessionManager.startSession 1 "Math" 60 0 []) = some s →
      (SessionManager.endSession 1 5400000 (SessionManager.startSession 1 "Math" 60 0 [])).1 =
        some { subject := s.subject
               goalTime := s.goalTimeMinutes
               actualTime := diffMinutes 5400000 s.startTime - s.totalBreakMinutes
               breakTime := s.totalBreakMinutes
               totalTime := (diffMinutes 5400000 s.startTime - s.totalBreakMinutes) +
                 s.totalBreakMinutes
               startTime := s.startTime
               endTime := 5400000
               percentage :=
                 if 0 < s.goalTimeMinutes then
                   jsRound ((diffMinutes 5400000 s.startTime - s.totalBreakMinutes) * 100)
                     (s.goalTimeMinutes : Int)
                 else 100 }
      ∧ (SessionManager.endSession 1 5400000 (SessionManager.startSession 1 "Math" 60 0 [])).2 =
          jsDel 1 (SessionManager.startSession 1 "Math" 60 0 [])
      ∧ jsGet 1 (SessionManager.endSession 1 5400000
          (SessionManager.startSession 1 "Math" 60 0 [])).2 = none
      ∧ SessionManager.endSession 1 9000000 (SessionManager.endSession 1 5400000
          (SessionManager.startSession 1 "Math" 60 0 [])).2 =
          (none, (SessionManager.endSession 1 5400000
            (SessionManager.startSession 1 "Math" 60 0 [])).2))
    ∧ (jsGet 1 (SessionManager.startSession 1 "Math" 60 0 []) = none →
        SessionManager.endSession 1 5400000 (SessionManager.startSession 1 "Math" 60 0 []) =
          (none, SessionManager.startSession 1 "Math" 60 0 [])) :=
  endSession_snapshot_removal_idempotence 1 5400000 9000000
    (SessionManager.startSession 1 "Math" 60 0 [])
    (by simp [SessionManager.startSession, jsSet, keysNodup])

/-! ## C2: break bookkeeping under arbitrary `startBreak`/`endBreak` sequences -/

/-- A timed `startBreak`/`endBreak` call on the session manager. -/
inductive BreakEv where
  | startBreak (now : Int)
  | endBreak (now : Int)
  deriving Repr, DecidableEq

/-- Apply one break event for a user. -/
def applyBreakEv (userId : Nat) (store : SessionStore) : BreakEv → SessionStore
  | .startBreak now => SessionManager.startBreak userId now store
  | .endBreak now => SessionManager.endBreak userId now store

/-- Apply a sequence of break events for a user, oldest first. -/
def applyBreakEvs (userId : Nat) (store : SessionStore) (evs : List BreakEv) :
    SessionStore :=
  evs.foldl (applyBreakEv userId) store

/-- Specification-level count of the breaks that are both started and ended in
an event sequence, given whether a break is currently open. -/
def completedBreaks : Bool → List BreakEv → Nat
  | _, [] => 0
  | _, .startBreak _ :: rest => completedBreaks true rest
  | onBreak, .endBreak _ :: rest =>
      (if onBreak then 1 else 0) + completedBreaks false rest

/-- Total of the recorded break durations. -/
def sumDurations (bs : List BreakRec) : Int := (bs.map BreakRec.duration).sum

lemma breakEvs_invariant (evs : List BreakEv) :
    ∀ (userId : Nat) (store : SessionStore) (s : StudySession) (onBreak : Bool),
      keysNodup store → jsGet userId store = some s →
      (if onBreak then s.status = "break" ∧ s.currentBreak.isSome
       else s.status = "studying" ∧ s.currentBreak = none) →
      s.totalBreakMinutes = sumDurations s.breaks →
      (∀ b ∈ s.breaks, b.duration = diffMinutes b.stop b.start) →
      ∃ s₂, jsGet userId (applyBreakEvs userId store evs) = some s₂ ∧
        s₂.totalBreakMinutes = sumDurations s₂.breaks ∧
        s₂.breaks.length = s.breaks.length + completedBreaks onBreak evs ∧
        ∀ b ∈ s₂.breaks, b.duration = diffMinutes b.stop b.start := by
  induction evs with
  | nil =>
    intro userId store s onBreak _ hget _ htot hdur
    exact ⟨s, by simpa [applyBreakEvs] using hget, htot, by simp [completedBreaks], hdur⟩
  | cons ev rest ih =>
    intro userId store s onBreak hnd hget hst htot hdur
    cases ev with
    | startBreak now =>
      cases onBreak with
      | false =>
        simp only [if_neg (by simp : ¬ (false : Bool) = true)] at hst
        have hstep : applyBreakEv userId store (.startBreak now) =
            jsSet userId { s with status := "break", currentBreak := some now } store := by
          simp [applyBreakEv, SessionManager.startBreak, hget, hst.1]
        have h2 := ih userId _ { s with status := "break", currentBreak := some now } true
          (keysNodup_set _ _ _ hnd) (jsGet_set_self _ _ _)
          (by simp) (by simpa [sumDurations] using htot) (by simpa using hdur)
        obtain ⟨s₂, hg₂, ht₂, hl₂, hd₂⟩ := h2
        refine ⟨s₂, ?_, ht₂, ?_, hd₂⟩
        · simpa [applyBreakEvs, hstep] using hg₂
        · simpa [completedBreaks] using hl₂
      | true =>
        simp only [if_pos rfl] at hst
        have hstep : applyBreakEv userId store (.startBreak now) = store := by
          simp [applyBreakEv, SessionManager.startBreak, hget, hst.1]
        have h2 := ih userId store s true hnd hget (by simp [hst.1, hst.2]) htot hdur
        obtain ⟨s₂, hg₂, ht₂, hl₂, hd₂⟩ := h2
        refine ⟨s₂, ?_, ht₂, ?_, hd₂⟩
        · simpa [applyBreakEvs, hstep] using hg₂
        · simpa [completedBreaks] using hl₂
    | endBreak now =>
      cases onBreak with
      | true =>
        simp only [if_pos rfl] at hst
        obtain ⟨t, hcb⟩ := Option.isSome_iff_exists.mp hst.2
        have hstep : applyBreakEv userId store (.endBreak now) =
            jsSet userId
              { s with
                totalBreakMinutes := s.totalBreakMinutes + diffMinutes now t
                breaks := s.breaks ++
                  [{ start := t, stop := now, duration := diffMinutes now t }]
                currentBreak := none
                status := "studying" } store := by
          simp [applyBreakEv, SessionManager.endBreak, hget, hst.1, hcb]
        have h2 := ih userId _
          { s with
            totalBreakMinutes := s.totalBreakMinutes + diffMinutes now t
            breaks := s.breaks ++
              [{ start := t, stop := now, duration := diffMinutes now t }]
            currentBreak := none
            status := "studying" } false
          (keysNodup_set _ _ _ hnd) (jsGet_set_self _ _ _)
          (by simp)
          (by simp [sumDurations, htot])
          (by
            intro b hb
            simp only [List.mem_append, List.mem_singleton] at hb
            rcases hb with h1 | h1
            · exact hdur b h1
            · subst h1
              rfl)
        obtain ⟨s₂, hg₂, ht₂, hl₂, hd₂⟩ := h2
        refine ⟨s₂, ?_, ht₂, ?_, hd₂⟩
        · simpa [applyBreakEvs, hstep] using hg₂
        · simp only [List.length_append, List.length_cons, List.length_nil] at hl₂
          simp only [completedBreaks, if_pos]
          simp only [hl₂]
          omega
      | false =>
        simp only [if_neg (by simp : ¬ (false : Bool) = true)] at hst
        have hstep : applyBreakEv userId store (.endBreak now) = store := by
          simp [applyBreakEv, SessionManager.endBreak, hget, hst.1]
        have h2 := ih userId store s false hnd hget (by simp [hst.1, hst.2]) htot hdur
        obtain ⟨s₂, hg₂, ht₂, hl₂, hd₂⟩ := h2
        refine ⟨s₂, ?_, ht₂, ?_, hd₂⟩
        · simpa [applyBreakEvs, hstep] using hg₂
        · simpa [completedBreaks] using hl₂

/-- **C2.** `startBreak` is a no-op unless the session status is `studying`;
`endBreak` is a no-op unless the status is `break`; and after any sequence of
break events applied to a fresh session, `totalBreakMinutes` equals the sum of
the recorded breaks' `durationMinutes` (each being the truncated integer-minute
difference of its endpoints), and `breaks.length` equals the number of breaks
that were both started and ended. -/
theorem break_bookkeeping :
    (∀ (userId : Nat) (now : Int) (store : SessionStore) (s : StudySession),
      jsGet userId store = some s → s.status ≠ "studying" →
      SessionManager.startBreak userId now store = store)
    ∧ (∀ (userId : Nat) (now : Int) (store : SessionStore) (s : StudySession),
      jsGet userId store = some s → s.status ≠ "break" →
      SessionManager.endBreak userId now store = store)
    ∧ (∀ (evs : List BreakEv) (userId : Nat) (subject : String) (goal : Nat)
        (t0 : Int) (store : SessionStore), keysNodup store →
      ∃ s₂, jsGet userId
          (applyBreakEvs userId (SessionManager.startSession userId subject goal t0 store) evs) =
            some s₂ ∧
        s₂.totalBreakMinutes = sumDurations s₂.breaks ∧
        s₂.breaks.length = completedBreaks false evs ∧
        ∀ b ∈ s₂.breaks, b.duration = diffMinutes b.stop b.start) := by
  refine ⟨?_, ?_, ?_⟩
  · intro userId now store s hget hst
    simp [SessionManager.startBreak, hget, hst]
  · intro userId now store s hget hst
    simp [SessionManager.endBreak, hget, hst]
  · intro evs userId subject goal t0 store hnd
    have h := breakEvs_invariant evs userId
      (SessionManager.startSession userId subject goal t0 store)
      { subject := subject, status := "studying", startTime := t0,
        goalTimeMinutes := goal, breaks := [], currentBreak := none,
        totalBreakMinutes := 0, messages := [] } false
      (keysNodup_set _ _ _ hnd)
      (jsGet_set_self _ _ _)
      (by simp) (by simp [sumDurations]) (by simp)
    obtain ⟨s₂, hg₂, ht₂, hl₂, hd₂⟩ := h
    exact ⟨s₂, hg₂, ht₂, by simpa using hl₂, hd₂⟩

/-- Witness for C2 at concrete inputs: a session that is on a break ignores a
second `startBreak`, a studying session ignores `endBreak`, and a
start/end pair records exactly one one-minute break. -/
theorem break_bookkeeping_witness :
    SessionManager.startBreak 1 70000
        (SessionManager.startBreak 1 60000 (SessionManager.startSession 1 "Sci" 0 0 [])) =
      SessionManager.startBreak 1 60000 (SessionManager.startSession 1 "Sci" 0 0 [])
    ∧ SessionManager.endBreak 1 70000 (SessionManager.startSession 1 "Sci" 0 0 []) =
      SessionManager.startSession 1 "Sci" 0 0 []
    ∧ ∃ s₂, jsGet 1
          (applyBreakEvs 1 (SessionManager.startSession 1 "Sci" 0 0 [])
            [BreakEv.startBreak 60000, BreakEv.endBreak 120000]) = some s₂ ∧
        s₂.totalBreakMinutes = sumDurations s₂.breaks ∧
        s₂.breaks.length = completedBreaks false
          [BreakEv.startBreak 60000, BreakEv.endBreak 120000] ∧
        ∀ b ∈ s₂.breaks, b.duration = diffMinutes b.stop b.start :=
  ⟨break_bookkeeping.1 1 70000 _
      ⟨"Sci", "break", 0, 0, [], some 60000, 0, []⟩ (by rfl) (by decide),
   break_bookkeeping.2.1 1 70000 _
      ⟨"Sci", "studying", 0, 0, [], none, 0, []⟩ (by rfl) (by decide),
   break_bookkeeping.2.2 [BreakEv.startBreak 60000, BreakEv.endBreak 120000]
      1 "Sci" 0 0 [] (by simp [keysNodup])⟩

/-! ## C8: the session-store invariant -/

/-- The data-model invariant on one session: on a break exactly when a break
start is recorded. -/
def sessionInvariant (s : StudySession) : Prop :=
  (s.status = "break" → s.currentBreak ≠ none) ∧
  (s.status = "studying" → s.currentBreak = none)

/-- The store invariant: unique keys (at most one session per user id) and
every stored session satisfies `sessionInvariant`. -/
def storeInvariant (store : SessionStore) : Prop :=
  keysNodup store ∧ ∀ p ∈ store, sessionInvariant p.2

/-- One call on the session manager's `activeSessions` map. -/
inductive SessionOp where
  | startSession (subject : String) (goal : Nat) (now : Int)
  | endSession (now : Int)
  | startBreak (now : Int)
  | endBreak (now : Int)
  | setGoalTime (minutes : Nat)
  | updateSessionStatus (status : String)
  deriving Repr, DecidableEq

/-- Apply one session-manager call for a user. -/
def applySessionOp (userId : Nat) (store : SessionStore) : SessionOp → SessionStore
  | .startSession subject goal now => SessionManager.startSession userId subject goal now store
  | .endSession now => (SessionManager.endSession userId now store).2
  | .startBreak now => SessionManager.startBreak userId now store
  | .endBreak now => SessionManager.endBreak userId now store
  | .setGoalTime minutes => SessionManager.setGoalTime userId minutes store
  | .updateSessionStatus status => SessionManager.updateSessionStatus userId status store

/-- Apply a list of (user, call) pairs, oldest first. -/
def applySessionOps (store : SessionStore) (ops : List (Nat × SessionOp)) : SessionStore :=
  ops.foldl (fun st p => applySessionOp p.1 st p.2) store

/-- `updateSessionStatus` calls, which write a raw status string. -/
def isUpdateStatus (op : SessionOp) : Prop := ∃ st, op = SessionOp.updateSessionStatus st

lemma sessionOp_preserves_nodup (userId : Nat) (store : SessionStore) (op : SessionOp)
    (h : keysNodup store) : keysNodup (applySessionOp userId store op) := by
  cases op with
  | startSession subject goal now =>
    exact keysNodup_set _ _ _ h
  | endSession now =>
    cases hget : jsGet userId store with
    | none => simpa [applySessionOp, SessionManager.endSession, hget] using h
    | some s =>
      simpa [applySessionOp, SessionManager.endSession, hget] using
        keysNodup_del userId store h
  | startBreak now =>
    cases hget : jsGet userId store with
    | none => simpa [applySessionOp, SessionManager.startBreak, hget] using h
    | some s =>
      by_cases hst : s.status = "studying"
      · simpa [applySessionOp, SessionManager.startBreak, hget, hst] using
          keysNodup_set userId { s with status := "break", currentBreak := some now } store h
      · simpa [applySessionOp, SessionManager.startBreak, hget, hst] using h
  | endBreak now =>
    cases hget : jsGet userId store with
    | none => simpa [applySessionOp, SessionManager.endBreak, hget] using h
    | some s =>
      by_cases hst : s.status = "break"
      · cases hcb : s.currentBreak with
        | none => simpa [applySessionOp, SessionManager.endBreak, hget, hst, hcb] using h
        | some t =>
          simpa [applySessionOp, SessionManager.endBreak, hget, hst, hcb] using
            keysNodup_set userId
              { s with
                totalBreakMinutes := s.totalBreakMinutes + diffMinutes now t
                breaks := s.breaks ++
                  [{ start := t, stop := now, duration := diffMinutes now t }]
                currentBreak := none
                status := "studying" } store h
      · simpa [applySessionOp, SessionManager.endBreak, hget, hst] using h
  | setGoalTime minutes =>
    cases hget : jsGet userId store with
    | none => simpa [applySessionOp, SessionManager.setGoalTime, hget] using h
    | some s =>
      simpa [applySessionOp, SessionManager.setGoalTime, hget] using
        keysNodup_set userId { s with goalTimeMinutes := minutes } store h
  | updateSessionStatus status =>
    cases hget : jsGet userId store with
    | none => simpa [applySessionOp, SessionManager.updateSessionStatus, hget] using h
    | some s =>
      simpa [applySessionOp, SessionManager.updateSessionStatus, hget] using
        keysNodup_set userId { s with status := status } store h

lemma sessionOp_preserves_invariant (userId : Nat) (store : SessionStore) (op : SessionOp)
    (hop : ¬ isUpdateStatus op) (h : storeInvariant store) :
    storeInvariant (applySessionOp userId store op) := by
  obtain ⟨hnd, hinv⟩ := h
  refine ⟨sessionOp_preserves_nodup userId store op hnd, ?_⟩
  cases op with
  | startSession subject goal now =>
    intro p hp
    rcases mem_jsSet _ _ _ _ hp with h1 | h1
    · subst h1
      exact ⟨by simp [sessionInvariant], fun _ => rfl⟩
    · exact hinv p h1
  | endSession now =>
    intro p hp
    cases hget : jsGet userId store with
    | none =>
      simp only [applySessionOp, SessionManager.endSession, hget] at hp
      exact hinv p hp
    | some s =>
      simp only [applySessionOp, SessionManager.endSession, hget] at hp
      exact hinv p (mem_jsDel _ _ _ hp)
  | startBreak now =>
    intro p hp
    cases hget : jsGet userId store with
    | none =>
      simp only [applySessionOp, SessionManager.startBreak, hget] at hp
      exact hinv p hp
    | some s =>
      by_cases hst : s.status = "studying"
      · simp only [applySessionOp, SessionManager.startBreak, hget, if_pos hst] at hp
        rcases mem_jsSet _ _ _ _ hp with h1 | h1
        · subst h1
          exact ⟨by simp, by simp [sessionInvariant]⟩
        · exact hinv p h1
      · simp only [applySessionOp, SessionManager.startBreak, hget, if_neg hst] at hp
        exact hinv p hp
  | endBreak now =>
    intro p hp
    cases hget : jsGet userId store with
    | none =>
      simp only [applySessionOp, SessionManager.endBreak, hget] at hp
      exact hinv p hp
    | some s =>
      by_cases hst : s.status = "break"
      · cases hcb : s.currentBreak with
        | none =>
          simp only [applySessionOp, SessionManager.endBreak, hget, if_pos hst, hcb] at hp
          exact hinv p hp
        | some t =>
          simp only [applySessionOp, SessionManager.endBreak, hget, if_pos hst, hcb] at hp
          rcases mem_jsSet _ _ _ _ hp with h1 | h1
          · subst h1
            exact ⟨by simp [sessionInvariant], by simp⟩
          · exact hinv p h1
      · simp only [applySessionOp, SessionManager.endBreak, hget, if_neg hst] at hp
        exact hinv p hp
  | setGoalTime minutes =>
    intro p hp
    cases hget : jsGet userId store with
    | none =>
      simp only [applySessionOp, SessionManager.setGoalTime, hget] at hp
      exact hinv p hp
    | some s =>
      simp only [applySessionOp, SessionManager.setGoalTime, hget] at hp
      rcases mem_jsSet _ _ _ _ hp with h1 | h1
      · subst h1
        have hs := hinv (userId, s) (jsGet_mem _ _ _ hget)
        exact ⟨hs.1, hs.2⟩
      · exact hinv p h1
  | updateSessionStatus status =>
    exact absurd ⟨status, rfl⟩ hop

lemma applySessionOps_invariant (ops : List (Nat × SessionOp)) :
    ∀ store : SessionStore, (∀ p ∈ ops, ¬ isUpdateStatus p.2) →
      storeInvariant store → storeInvariant (applySessionOps store ops) := by
  induction ops with
  | nil =>
    intro store _ h
    simpa [applySessionOps] using h
  | cons p rest ih =>
    intro store hops h
    have h1 := sessionOp_preserves_invariant p.1 store p.2
      (hops p (List.mem_cons_self _ _)) h
    have h2 := ih (applySessionOp p.1 store p.2)
      (fun q hq => hops q (List.mem_cons_of_mem _ hq)) h1
    simpa [applySessionOps] using h2

/-- **C8 counterexample.** The claim that every session-store operation
preserves the invariant fails for `updateSessionStatus`: applied with status
`'break'` to a freshly started (studying) session, it yields a store whose
session has `status = 'break'` but `currentBreak = null`. -/
theorem updateSessionStatus_violates_invariant :
    storeInvariant (SessionManager.startSession 1 "Math" 0 0 []) ∧
    ¬ storeInvariant
        (SessionManager.updateSessionStatus 1 "break"
          (SessionManager.startSession 1 "Math" 0 0 [])) := by
  constructor
  · refine ⟨by simp [SessionManager.startSession, jsSet, keysNodup], ?_⟩
    intro p hp
    simp only [SessionManager.startSession, jsSet, List.mem_singleton] at hp
    subst hp
    exact ⟨by simp [sessionInvariant], fun _ => rfl⟩
  · intro hcon
    obtain ⟨-, hinv⟩ := hcon
    have hmem : ((1 : Nat),
        ({ subject := "Math", status := "break", startTime := 0,
           goalTimeMinutes := 0, breaks := [], currentBreak := none,
           totalBreakMinutes := 0, messages := [] } : StudySession)) ∈
        SessionManager.updateSessionStatus 1 "break"
          (SessionManager.startSession 1 "Math" 0 0 []) := by
      simp [SessionManager.updateSessionStatus, SessionManager.startSession, jsSet, jsGet]
    have h2 := hinv _ hmem
    exact (h2.1 rfl) rfl

/-- **C8 (amended).** Every session-store operation preserves "at most one
StudySession per user id" (unique keys).  Every operation except
`updateSessionStatus` also preserves the status/`currentBreak` invariant, so
every state reachable without `updateSessionStatus` satisfies it; but
`updateSessionStatus('break')` on a studying session produces a session with
`status = OnBreak` and `currentBreakStart = null`. -/
theorem sessionStore_invariant_amended :
    (∀ (userId : Nat) (store : SessionStore) (op : SessionOp),
      keysNodup store → keysNodup (applySessionOp userId store op))
    ∧ (∀ (userId : Nat) (store : SessionStore) (op : SessionOp),
      ¬ isUpdateStatus op → storeInvariant store →
      storeInvariant (applySessionOp userId store op))
    ∧ (∀ ops : List (Nat × SessionOp),
      (∀ p ∈ ops, ¬ isUpdateStatus p.2) →
      storeInvariant (applySessionOps [] ops))
    ∧ (∀ (userId : Nat) (store : SessionStore) (s : StudySession),
      jsGet userId store = some s → s.status = "studying" → s.currentBreak = none →
      ∃ s₂, jsGet userId (SessionManager.updateSessionStatus userId "break" store) =
          some s₂ ∧ s₂.status = "break" ∧ s₂.currentBreak = none ∧
          ¬ sessionInvariant s₂) := by
  refine ⟨sessionOp_preserves_nodup, sessionOp_preserves_invariant, ?_, ?_⟩
  · intro ops hops
    exact applySessionOps_invariant ops [] hops ⟨List.nodup_nil, by simp⟩
  · intro userId store s hget hst hcb
    refine ⟨{ s with status := "break" }, ?_, rfl, by simpa using hcb, ?_⟩
    · simp [SessionManager.updateSessionStatus, hget, jsGet_set_self]
    · intro hcon
      have := hcon.1 rfl
      simp at this
      exact this (by simpa using hcb)

/-- Witness for C8 (amended) at concrete inputs. -/
theorem sessionStore_invariant_amended_witness :
    keysNodup (applySessionOp 1 [] (SessionOp.startSession "Math" 60 0))
    ∧ storeInvariant (applySessionOp 1 [] (SessionOp.startSession "Math" 60 0))
    ∧ storeInvariant (applySessionOps []
        [(1, SessionOp.startSession "Math" 60 0), (1, SessionOp.startBreak 60000)])
    ∧ ∃ s₂, jsGet 1 (SessionManager.updateSessionStatus 1 "break"
          (SessionManager.startSession 1 "Math" 0 0 [])) = some s₂ ∧
        s₂.status = "break" ∧ s₂.currentBreak = none ∧ ¬ sessionInvariant s₂ :=
  ⟨sessionStore_invariant_amended.1 1 [] _ List.nodup_nil,
   sessionStore_invariant_amended.2.1 1 [] _
      (by rintro ⟨st, h⟩; simp at h) ⟨List.nodup_nil, by simp⟩,
   sessionStore_invariant_amended.2.2.1 _
      (by
        intro p hp
        simp only [List.mem_cons, List.not_mem_nil, or_false] at hp
        rcases hp with rfl | rfl
        · rintro ⟨st, h⟩; simp at h
        · rintro ⟨st, h⟩; simp at h),
   sessionStore_invariant_amended.2.2.2 1 (SessionManager.startSession 1 "Math" 0 0 [])
      { subject := "Math", status := "studying", startTime := 0,
        goalTimeMinutes := 0, breaks := [], currentBreak := none,
        totalBreakMinutes := 0, messages := [] }
      (by rfl) rfl rfl⟩

/-! ## JavaScript string primitives

Embedded over `String.data` (kernel-computable), mirroring `split('\n')`,
`trim()`, `toLowerCase()`, `startsWith`, `String.fromCharCode`, and the
template-literal coercion of `undefined`. -/

/-- `sub` is an initial segment of `l`. -/
def isPrefList (sub l : List Char) : Bool :=
  match sub, l with
  | [], _ => true
  | _ :: _, [] => false
  | a :: as, b :: bs => a == b && isPrefList as bs

/-- `sub` occurs contiguously somewhere in `l`. -/
def occursIn (sub l : List Char) : Bool :=
  match l with
  | [] => sub.isEmpty
  | _ :: rest => isPrefList sub l || occursIn sub rest

/-- `s.includes(sub)`: substring occurrence. -/
def strOccurs (sub s : String) : Bool := occursIn sub.data s.data

/-- `str.split(sep)` for a one-character separator (as `split('\n')`). -/
def splitChars (sep : Char) : List Char → List (List Char)
  | [] => [[]]
  | c :: rest =>
      let r := splitChars sep rest
      if c = sep then [] :: r
      else
        match r with
        | [] => [[c]]
        | h :: t => (c :: h) :: t

/-- `str.split('\n')`. -/
def jsSplitNL (s : String) : List String := (splitChars '\n' s.data).map String.mk

/-- Whitespace for `trim()` (the characters relevant to this code base). -/
def isWsChar (c : Char) : Bool := c == ' ' || c == '\n' || c == '\t' || c == '\r'

/-- `str.trim()`. -/
def jsTrim (s : String) : String :=
  String.mk (((s.data.dropWhile isWsChar).reverse.dropWhile isWsChar).reverse)

/-- `str.toLowerCase()`. -/
def jsToLower (s : String) : String := String.mk (s.data.map Char.toLower)

/-- `s.startsWith(sub)`. -/
def jsStartsWith (s sub : String) : Bool := isPrefList sub.data s.data

/-- `String.fromCharCode(n)`. -/
def fromCharCode (n : Nat) : String := String.mk [Char.ofNat n]

/-- Template-literal coercion: `undefined` renders as `"undefined"`. -/
def jsShow (o : Option String) : String :=
  match o with
  | some s => s
  | none => "undefined"

/-- Truthiness of a JS string-or-undefined (`undefined` and `''` are falsy). -/
def strTruthy (o : Option String) : Bool :=
  match o with
  | some s => !(s == "")
  | none => false

/-- `answer === question.correctAnswer` where the right side may be
`undefined`. -/
def jsStrictEq (a : String) (b : Option String) : Bool :=
  match b with
  | some s => a == s
  | none => false

/-! ## Quiz module (`src/quiz.js`)

`createdAt` (an ISO timestamp string) and `messageThreadId` are carried on
published questions in the source but never read by any store operation; they
are omitted.  Question ids are `Date.now().toString()`: the decimal rendering
is injective, so ids are embedded as the raw millisecond `Nat`. -/

/-- An uploaded image: only the caption (`msg.caption || ''`) is ever read. -/
structure ImageData where
  caption : String
  deriving Repr, DecidableEq

/-- The `questionData` object accumulated during authoring.  Absent JS fields
are `none`. -/
structure QuestionData where
  subject : Option String := none
  question : Option String := none
  image : Option ImageData := none
  tempChoices : Option (List String) := none
  choices : Option (List String) := none
  tempAnswer : Option String := none
  correctAnswer : Option String := none
  deriving Repr, DecidableEq

/-- A user's authoring state (`userState` map value). -/
structure UserState where
  state : String
  questionData : QuestionData
  tempMessages : List Nat
  deriving Repr, DecidableEq

/-- A published question (`questions` map value). -/
structure Question where
  subject : Option String
  question : Option String
  image : Option ImageData
  choices : Option (List String)
  correctAnswer : Option String
  explanation : Option String
  creatorId : Nat
  creatorName : String
  id : Nat
  deriving Repr, DecidableEq

/-- The quiz module's two live maps (`currentQuestions` is never used). -/
structure QuizState where
  questions : List (Nat × Question)
  userState : List (Nat × UserState)
  deriving Repr, DecidableEq

/-- The quiz store with nothing published and nobody authoring. -/
def emptyQuizState : QuizState := { questions := [], userState := [] }

namespace Quiz

/-- `startQuestionCreation(userId)`. -/
def startQuestionCreation (userId : Nat) (st : QuizState) : QuizState :=
  { st with
      userState := jsSet userId
        ({ state := "WAITING_SUBJECT", questionData := {}, tempMessages := [] } : UserState)
        st.userState }

/-- `formatChoices(rawChoices)`: drop blank lines, label survivors
`a) …`, `b) …` in order. -/
def formatChoices (rawChoices : List String) : List String :=
  (rawChoices.filter (fun choice => jsTrim choice != "")).mapIdx
    (fun index choice => fromCharCode (97 + index) ++ ") " ++ jsTrim choice)

/-- The valid answer letters for a choice count
(`Array.from({length: maxChoice}, (_, i) => String.fromCharCode(97 + i))`). -/
def validAnswers (maxChoice : Nat) : List String :=
  (List.range maxChoice).map (fun i => fromCharCode (97 + i))

/-- `cleanupMessages(chatId, bot)`: request deletion of every user's
`tempMessages` (each list in reverse order, users in insertion order) and
clear all the lists.  Individual deletions are best-effort in the source
(failures logged and swallowed), so the state update is unconditional. -/
def cleanupMessages (st : QuizState) : QuizState × List Nat :=
  ({ st with
      userState := st.userState.map
        (fun p => (p.1, { p.2 with tempMessages := ([] : List Nat) })) },
   (st.userState.map (fun p => p.2.tempMessages.reverse)).flatten)

/-- `cancelQuestionCreation(userId)`: drop the draft, nothing else. -/
def cancelQuestionCreation (userId : Nat) (st : QuizState) : QuizState :=
  { st with userState := jsDel userId st.userState }

/-- Outcome of `handleQuestionCreation`: the boolean return value, the
updated store, and the message deletions requested (best-effort). -/
structure QcResult where
  handled : Bool
  state : QuizState
  deleted : List Nat
  deriving Repr, DecidableEq

/-- An inbound chat message: text, or a photo with an optional caption. -/
inductive MsgContent where
  | text (s : String)
  | photo (caption : Option String)
  deriving Repr, DecidableEq

/-- The `msg.text` of a message (`undefined` for a photo). -/
def MsgContent.textOf : MsgContent → Option String
  | .text s => some s
  | .photo _ => none

/-- The `Question` object assembled at the publish step
(`{...userState.questionData, explanation: msg.text, creatorId, creatorName,
id, …}`; the stale `tempChoices`/`tempAnswer` fields also spread into the JS
object are never read and are dropped). -/
def publishedQuestion (userId : Nat) (textOf firstName : Option String)
    (now : Nat) (qd : QuestionData) : Question :=
  { subject := qd.subject
    question := qd.question
    image := qd.image
    choices := qd.choices
    correctAnswer := qd.correctAnswer
    explanation := textOf
    creatorId := userId
    creatorName :=
      if strTruthy firstName then jsShow firstName else "User" ++ Nat.repr userId
    id := now }

/-- The `switch (userState.state)` of `handleQuestionCreation`, reached after
the inbound message was recorded and the photo branch did not fire.
`us` is the (already updated) user state, `st` the store containing it.
In `WAITING_CORRECT_ANSWER` the source reads `questionData.choices.length`,
which throws if `choices` is undefined; the throw aborts the handler before
any state change, which has the same store effect as treating the length as 0
(no answer is ever valid), embedded via `getD []`. -/
def qcSwitch (userId : Nat) (textOf : Option String) (firstName : Option String)
    (now : Nat) (botMsgId : Nat) (us : UserState) (st : QuizState) : QcResult :=
  if us.state = "WAITING_QUESTION" then
    match textOf with
    | some t =>
        let us2 := { us with
          questionData := { us.questionData with question := some t }
          state := "WAITING_CHOICES"
          tempMessages := us.tempMessages ++ [botMsgId] }
        { handled := true,
          state := { st with userState := jsSet userId us2 st.userState },
          deleted := [] }
    | none => { handled := true, state := st, deleted := [] }
  else if us.state = "WAITING_CHOICES" then
    match textOf with
    | none => { handled := true, state := st, deleted := [] }
    | some t =>
        let rawChoices := jsSplitNL t
        if rawChoices.length < 2 ∨ 5 < rawChoices.length then
          -- 'Please provide between 2 and 5 choices.'
          let us2 := { us with tempMessages := us.tempMessages ++ [botMsgId] }
          { handled := true,
            state := { st with userState := jsSet userId us2 st.userState },
            deleted := [] }
        else
          let us2 := { us with
            questionData := { us.questionData with
              tempChoices := some (formatChoices rawChoices) }
            tempMessages := us.tempMessages ++ [botMsgId] }
          { handled := true,
            state := { st with userState := jsSet userId us2 st.userState },
            deleted := [] }
  else if us.state = "WAITING_CORRECT_ANSWER" then
    match textOf with
    | none => { handled := true, state := st, deleted := [] }
    | some t =>
        let answer := jsToLower t
        let maxChoice := (us.questionData.choices.getD []).length
        if (validAnswers maxChoice).contains answer then
          let us2 := { us with
            questionData := { us.questionData with tempAnswer := some answer }
            tempMessages := us.tempMessages ++ [botMsgId] }
          { handled := true,
            state := { st with userState := jsSet userId us2 st.userState },
            deleted := [] }
        else
          -- 'Please enter a valid answer letter …'
          let us2 := { us with tempMessages := us.tempMessages ++ [botMsgId] }
          { handled := true,
            state := { st with userState := jsSet userId us2 st.userState },
            deleted := [] }
  else if us.state = "WAITING_EXPLANATION" then
    -- publish: id from `Date.now()`, clean up every draft's scratch
    -- messages, store the question, drop the publisher's draft
    let questionId := now
    let questionData := publishedQuestion userId textOf firstName now us.questionData
    let cleaned := cleanupMessages st
    { handled := true,
      state := { cleaned.1 with
        questions := jsSet questionId questionData cleaned.1.questions
        userState := jsDel userId cleaned.1.userState }
      deleted := cleaned.2 }
  else
    -- e.g. WAITING_SUBJECT: no case matches, the function returns false
    { handled := false, state := st, deleted := [] }

/-- The photo branch of `handleQuestionCreation`, reached when a photo
arrives in `WAITING_QUESTION`: store the image; a non-empty caption becomes
the question text and the state advances to `WAITING_CHOICES`. -/
def photoBranch (userId : Nat) (caption : Option String) (botMsgId : Nat)
    (us : UserState) (st : QuizState) : QcResult :=
  let qd := { us.questionData with image := some { caption := caption.getD "" } }
  if strTruthy caption then
    let us2 := { us with
      questionData := { qd with question := caption }
      state := "WAITING_CHOICES"
      tempMessages := us.tempMessages ++ [botMsgId] }
    { handled := true,
      state := { st with userState := jsSet userId us2 st.userState },
      deleted := [] }
  else
    let us2 := { us with
      questionData := qd
      tempMessages := us.tempMessages ++ [botMsgId] }
    { handled := true,
      state := { st with userState := jsSet userId us2 st.userState },
      deleted := [] }

/-- `handleQuestionCreation(msg, bot)`.  The inbound message id is recorded
first; a photo in `WAITING_QUESTION` is consumed by the photo branch
(advancing on a non-empty caption), anything else goes through the state
switch. -/
def handleQuestionCreation (userId msgId : Nat) (content : MsgContent)
    (firstName : Option String) (now : Nat) (botMsgId : Nat)
    (st : QuizState) : QcResult :=
  match jsGet userId st.userState with
  | none => { handled := false, state := st, deleted := [] }
  | some us0 =>
      -- `addTempMessage(userId, msg.message_id)`
      let us := { us0 with tempMessages := us0.tempMessages ++ [msgId] }
      let st1 : QuizState := { st with userState := jsSet userId us st.userState }
      match content with
      | .photo caption =>
          if us.state = "WAITING_QUESTION" then
            photoBranch userId caption botMsgId us st1
          else
            qcSwitch userId none firstName now botMsgId us st1
      | .text t => qcSwitch userId (some t) firstName now botMsgId us st1

/-- `handleConfirmChoices(userId, …)`: promote `tempChoices` to `choices`,
advance to `WAITING_CORRECT_ANSWER`, record the prompt message. -/
def handleConfirmChoices (userId botMsgId : Nat) (st : QuizState) :
    Bool × QuizState :=
  match jsGet userId st.userState with
  | none => (false, st)
  | some us =>
      match us.questionData.tempChoices with
      | none => (false, st)
      | some tc =>
          let us2 := { us with
            questionData := { us.questionData with
              choices := some tc
              tempChoices := none }
            state := "WAITING_CORRECT_ANSWER"
            tempMessages := us.tempMessages ++ [botMsgId] }
          (true, { st with userState := jsSet userId us2 st.userState })

/-- `handleRetryChoices(userId, …)`: back to `WAITING_CHOICES`, discard the
parsed choices, record the prompt message. -/
def handleRetryChoices (userId botMsgId : Nat) (st : QuizState) :
    Bool × QuizState :=
  match jsGet userId st.userState with
  | none => (false, st)
  | some us =>
      let us2 := { us with
        questionData := { us.questionData with tempChoices := none }
        state := "WAITING_CHOICES"
        tempMessages := us.tempMessages ++ [botMsgId] }
      (true, { st with userState := jsSet userId us2 st.userState })

/-- `handleConfirmAnswer(userId, …)`: promote `tempAnswer` to
`correctAnswer`, advance to `WAITING_EXPLANATION`. -/
def handleConfirmAnswer (userId botMsgId : Nat) (st : QuizState) :
    Bool × QuizState :=
  match jsGet userId st.userState with
  | none => (false, st)
  | some us =>
      if strTruthy us.questionData.tempAnswer then
        let us2 := { us with
          questionData := { us.questionData with
            correctAnswer := us.questionData.tempAnswer
            tempAnswer := none }
          state := "WAITING_EXPLANATION"
          tempMessages := us.tempMessages ++ [botMsgId] }
        (true, { st with userState := jsSet userId us2 st.userState })
      else (false, st)

/-- `handleRetryAnswer(userId, …)`: back to `WAITING_CORRECT_ANSWER`,
discard the tentative answer. -/
def handleRetryAnswer (userId botMsgId : Nat) (st : QuizState) :
    Bool × QuizState :=
  match jsGet userId st.userState with
  | none => (false, st)
  | some us =>
      let us2 := { us with
        questionData := { us.questionData with tempAnswer := none }
        state := "WAITING_CORRECT_ANSWER"
        tempMessages := us.tempMessages ++ [botMsgId] }
      (true, { st with userState := jsSet userId us2 st.userState })

/-- `handleDeleteConfirmation1(questionId, userId, …)`: only asks "are you
sure" (returns whether the prompt was sent); the store is untouched. -/
def handleDeleteConfirmation1 (questionId userId : Nat) (st : QuizState) :
    Bool × QuizState :=
  match jsGet questionId st.questions with
  | none => (false, st)
  | some q => (q.creatorId = userId, st)

/-- `handleDeleteConfirmation2(questionId, userId, …)`: "REALLY? Are you
sure?"; the store is untouched. -/
def handleDeleteConfirmation2 (questionId userId : Nat) (st : QuizState) :
    Bool × QuizState :=
  match jsGet questionId st.questions with
  | none => (false, st)
  | some q => (q.creatorId = userId, st)

/-- `deleteQuestion(questionId, userId, …)`: removes the question only when
the requester is its creator. -/
def deleteQuestion (questionId userId : Nat) (st : QuizState) :
    Bool × QuizState :=
  match jsGet questionId st.questions with
  | some q =>
      if q.creatorId = userId then
        (true, { st with questions := jsDel questionId st.questions })
      else (false, st)
  | none => (false, st)

/-- The explanation message posted after the answer delay: its text and the
`done:<questionId>` payload of its dismiss button. -/
structure ExplMsg where
  text : String
  dismissData : String
  deriving Repr, DecidableEq

/-- `question.choices.find(c => c.toLowerCase().startsWith(correct.toLowerCase()))`. -/
def findCorrectChoice (choices : List String) (correct : String) : Option String :=
  choices.find? (fun choice => jsStartsWith (jsToLower choice) (jsToLower correct))

/-- The explanation text: the ternary on `isCorrect` in the `setTimeout`
body of `handleAnswer`. -/
def explText (isCorrect : Bool) (correctChoice : Option String)
    (explanation : Option String) : String :=
  if isCorrect then
    "✅ <b>Correct!</b>\n\n<b>Explanation:</b>\n" ++ jsShow explanation
  else
    "❌ <b>The correct answer is:</b>\n" ++ jsShow correctChoice ++
      "\n\n<b>Explanation:</b>\n" ++ jsShow explanation

/-- The `setTimeout` body of `handleAnswer`: builds the explanation message
from the captured question.  If `correctAnswer` is `undefined` the source
throws at `.toLowerCase()` and nothing is posted (`none`). -/
def explanationMessage (isCorrect : Bool) (q : Question) : Option ExplMsg :=
  match q.correctAnswer with
  | none => none
  | some correct =>
      some
        { text := explText isCorrect (findCorrectChoice (q.choices.getD []) correct)
            q.explanation
          dismissData := "done:" ++ Nat.repr q.id }

/-- The synchronous part of `handleAnswer(callbackQuery, bot)`: look up the
question (absent ⇒ no-op), acknowledge correctness, and capture
`(isCorrect, question)` for the delayed follow-up.  The store is never
modified. -/
def handleAnswer (st : QuizState) (questionId : Nat) (answer : String) :
    Option (Bool × Question) :=
  match jsGet questionId st.questions with
  | none => none
  | some q => some (jsStrictEq answer q.correctAnswer, q)

/-- The delayed follow-up, fired at timer expiry: it uses only the values
captured at answer time — the store at expiry is not consulted. -/
def answerFollowUp (captured : Bool × Question) (_stAtExpiry : QuizState) :
    Option ExplMsg :=
  explanationMessage captured.1 captured.2

/-- `handleDoneReading(questionId, chatId, messageId, …)`: delete only the
explanation message; the store is untouched. -/
def handleDoneReading (st : QuizState) (messageId : Nat) :
    QuizState × List Nat :=
  (st, [messageId])

end Quiz

/-! ## Dispatcher pieces (`src/handlers.js`) -/

/-- The dispatcher's own minimal session record (`handlers.js` defines an
inline `SessionManager` whose sessions carry only subject and status). -/
structure SimpleSession where
  subject : String
  status : String
  deriving Repr, DecidableEq

/-- The inline dispatcher session store. -/
abbrev SimpleStore : Type := List (Nat × SimpleSession)

/-- The inline `startSession(userId, subject)`. -/
def simpleStartSession (userId : Nat) (subject : String) (store : SimpleStore) :
    SimpleStore :=
  jsSet userId { subject := subject, status := "studying" } store

/-- The `select_subject:<subject>` branch of `handleCallback`: a draft in
`WAITING_SUBJECT` routes the click to question authoring, anything else
starts a study session. -/
def handleSelectSubject (userId : Nat) (subject : String)
    (qst : QuizState) (sst : SimpleStore) : QuizState × SimpleStore :=
  match jsGet userId qst.userState with
  | some us =>
      if us.state = "WAITING_SUBJECT" then
        ({ qst with
            userState := jsSet userId
              { us with
                questionData := { us.questionData with subject := some subject }
                state := "WAITING_QUESTION" }
              qst.userState }, sst)
      else (qst, simpleStartSession userId subject sst)
  | none => (qst, simpleStartSession userId subject sst)

/-- The `CANCEL_QUESTION` branch of `handleCallback`: delete the clicked
message, drop the draft (`cancelQuestionCreation`), send the cancellation
notice.  No scratch message is deleted. -/
def handleCancelQuestion (userId clickedMsgId : Nat) (st : QuizState) :
    QuizState × List Nat :=
  (Quiz.cancelQuestionCreation userId st, [clickedMsgId])

/-- A concrete published question used by several concrete-input theorems. -/
def demoQuestion : Question :=
  { subject := some "Geography"
    question := some "Capital of France?"
    image := none
    choices := some ["a) Paris", "b) London"]
    correctAnswer := some "a"
    explanation := some "Because."
    creatorId := 7
    creatorName := "Ann"
    id := 111 }

/-- A store holding only `demoQuestion`, with nobody authoring. -/
def demoQuizState : QuizState := { questions := [(111, demoQuestion)], userState := [] }

/-! ## C4: `select_subject` disambiguation -/

/-- **C4.** For a user with an in-progress draft in `WAITING_SUBJECT`, a
`select_subject:<subject>` click sets the draft's subject and advances it to
the question-text state without touching the session store; for a user with
no such draft, the same click starts a new study session with that subject
(and a fresh session carries the chosen subject with status `studying`). -/
theorem selectSubject_disambiguation (userId : Nat) (subject : String)
    (qst : QuizState) (sst : SimpleStore) :
    (∀ us, jsGet userId qst.userState = some us → us.state = "WAITING_SUBJECT" →
      handleSelectSubject userId subject qst sst =
        ({ qst with
            userState := jsSet userId
              { us with
                questionData := { us.questionData with subject := some subject }
                state := "WAITING_QUESTION" }
              qst.userState }, sst))
    ∧ (∀ us, jsGet userId qst.userState = some us → us.state ≠ "WAITING_SUBJECT" →
      handleSelectSubject userId subject qst sst =
        (qst, simpleStartSession userId subject sst))
    ∧ (jsGet userId qst.userState = none →
      handleSelectSubject userId subject qst sst =
        (qst, simpleStartSession userId subject sst))
    ∧ jsGet userId (simpleStartSession userId subject sst) =
        some { subject := subject, status := "studying" } := by
  refine ⟨?_, ?_, ?_, ?_⟩
  · intro us hget hst
    simp [handleSelectSubject, hget, hst]
  · intro us hget hst
    simp [handleSelectSubject, hget, hst]
  · intro hget
    simp [handleSelectSubject, hget]
  · exact jsGet_set_self _ _ _

/-- Witness for C4 at concrete inputs: user 1 has a fresh draft (so the click
routes to the draft), user 2 has none (so the click starts a session). -/
theorem selectSubject_disambiguation_witness :
    (handleSelectSubject 1 "Mathematics" (Quiz.startQuestionCreation 1 emptyQuizState) [] =
      ({ Quiz.startQuestionCreation 1 emptyQuizState with
          userState := jsSet 1
            { state := "WAITING_QUESTION"
              questionData := { subject := some "Mathematics" }
              tempMessages := [] }
            (Quiz.startQuestionCreation 1 emptyQuizState).userState }, []))
    ∧ (handleSelectSubject 2 "Mathematics" emptyQuizState [] =
        (emptyQuizState, simpleStartSession 2 "Mathematics" []))
    ∧ jsGet 2 (simpleStartSession 2 "Mathematics" []) =
        some { subject := "Mathematics", status := "studying" } :=
  ⟨(selectSubject_disambiguation 1 "Mathematics"
      (Quiz.startQuestionCreation 1 emptyQuizState) []).1
      { state := "WAITING_SUBJECT", questionData := {}, tempMessages := [] }
      (by rfl) rfl,
   (selectSubject_disambiguation 2 "Mathematics" emptyQuizState []).2.2.1 (by rfl),
   (selectSubject_disambiguation 2 "Mathematics" emptyQuizState []).2.2.2⟩

/-! ## C5: two-step delete flow authorization -/

/-- **C5.** The confirmation steps never change the question store; the final
`delete_question` step removes the question only when the requester is its
creator; a non-creator (or a missing question) is a silent no-op at every
step. -/
theorem delete_flow_authorization (questionId userId : Nat) (st : QuizState)
    (hnd : keysNodup st.questions) :
    ((Quiz.handleDeleteConfirmation1 questionId userId st).2 = st)
    ∧ ((Quiz.handleDeleteConfirmation2 questionId userId st).2 = st)
    ∧ (∀ q, jsGet questionId st.questions = some q → q.creatorId ≠ userId →
        Quiz.deleteQuestion questionId userId st = (false, st))
    ∧ (jsGet questionId st.questions = none →
        Quiz.deleteQuestion questionId userId st = (false, st))
    ∧ (∀ q, jsGet questionId st.questions = some q → q.creatorId = userId →
        Quiz.deleteQuestion questionId userId st =
          (true, { st with questions := jsDel questionId st.questions })
        ∧ jsGet questionId (Quiz.deleteQuestion questionId userId st).2.questions =
            none) := by
  refine ⟨?_, ?_, ?_, ?_, ?_⟩
  · cases hget : jsGet questionId st.questions <;>
      simp [Quiz.handleDeleteConfirmation1, hget]
  · cases hget : jsGet questionId st.questions <;>
      simp [Quiz.handleDeleteConfirmation2, hget]
  · intro q hget hne
    simp [Quiz.deleteQuestion, hget, hne]
  · intro hget
    simp [Quiz.deleteQuestion, hget]
  · intro q hget heq
    constructor
    · simp [Quiz.deleteQuestion, hget, heq]
    · simp only [Quiz.deleteQuestion, hget, if_pos heq]
      exact jsGet_del_self questionId st.questions hnd

/-- Witness for C5 at a concrete input: question 111 created by user 7;
user 8's delete is a no-op at every step, user 7's final step removes it. -/
theorem delete_flow_authorization_witness :
    ((Quiz.handleDeleteConfirmation1 111 8 demoQuizState).2 = demoQuizState)
    ∧ (Quiz.deleteQuestion 111 8 demoQuizState = (false, demoQuizState))
    ∧ (Quiz.deleteQuestion 112 8 demoQuizState = (false, demoQuizState))
    ∧ (Quiz.deleteQuestion 111 7 demoQuizState =
        (true, { demoQuizState with questions := jsDel 111 demoQuizState.questions })
      ∧ jsGet 111 (Quiz.deleteQuestion 111 7 demoQuizState).2.questions = none) :=
  ⟨(delete_flow_authorization 111 8 demoQuizState (by simp [demoQuizState, keysNodup])).1,
   (delete_flow_authorization 111 8 demoQuizState (by simp [demoQuizState, keysNodup])).2.2.1
      demoQuestion (by rfl) (by decide),
   (delete_flow_authorization 112 8 demoQuizState (by simp [demoQuizState, keysNodup])).2.2.2.1
      (by rfl),
   (delete_flow_authorization 111 7 demoQuizState (by simp [demoQuizState, keysNodup])).2.2.2.2
      demoQuestion (by rfl) (by rfl)⟩

/-! ## C6/C7: answer flow and its delayed follow-up -/

lemma occursIn_nil_left (l : List Char) : occursIn [] l = true := by
  cases l <;> simp [occursIn, isPrefList, List.isEmpty]

lemma isPrefList_self_append (sub rest : List Char) :
    isPrefList sub (sub ++ rest) = true := by
  induction sub with
  | nil => simp [isPrefList]
  | cons a as ih => simp [isPrefList, ih]

lemma occursIn_append (pre sub post : List Char) :
    occursIn sub (pre ++ (sub ++ post)) = true := by
  induction pre with
  | nil =>
    cases sub with
    | nil => simpa using occursIn_nil_left post
    | cons a as =>
      simp only [List.nil_append, List.cons_append, occursIn]
      rw [show a :: (as ++ post) = (a :: as) ++ post from rfl,
        isPrefList_self_append]
      simp
  | cons p pre ih =>
    simp only [List.cons_append, occursIn, List.append_eq, ih, Bool.or_true]

lemma strOccurs_append_end (a sub : String) : strOccurs sub (a ++ sub) = true := by
  have h := occursIn_append a.data sub.data []
  simpa [strOccurs, String.data_append] using h

lemma strOccurs_append_mid (a sub b : String) :
    strOccurs sub (a ++ sub ++ b) = true := by
  have h := occursIn_append a.data sub.data b.data
  unfold strOccurs
  rw [String.data_append, String.data_append, List.append_assoc]
  exact h

/-- **C6 counterexample.** A responder answering correctly gets an
acknowledgment and, after the delay, an explanation message that does *not*
contain the correct choice text (`"a) Paris"`): the source only reveals the
choice text in the incorrect branch, against the claim's "always". -/
theorem answer_correct_hides_choice_text :
    Quiz.handleAnswer demoQuizState 111 "a" = some (true, demoQuestion)
    ∧ Quiz.answerFollowUp (true, demoQuestion) demoQuizState =
        some { text := "✅ <b>Correct!</b>\n\n<b>Explanation:</b>\nBecause."
               dismissData := "done:111" }
    ∧ strOccurs "a) Paris" "✅ <b>Correct!</b>\n\n<b>Explanation:</b>\nBecause." =
        false := by
  refine ⟨by decide, by decide, by decide⟩

/-- **C6 (amended).** For `answer:<questionId>:<label>`: a missing question is
a no-op; otherwise the responder is acknowledged as correct exactly when the
label strictly equals the stored `correctAnswer`; the delayed explanation
message always contains the stored explanation, and contains the correct
choice text when (and only guaranteed when) the answer was incorrect; its
dismiss control deletes only the explanation message, leaving the question in
the store and answerable. -/
theorem answer_flow_amended (st stAtExpiry : QuizState) (questionId : Nat)
    (label : String) :
    (jsGet questionId st.questions = none →
      Quiz.handleAnswer st questionId label = none)
    ∧ (∀ q, jsGet questionId st.questions = some q →
        Quiz.handleAnswer st questionId label =
          some (jsStrictEq label q.correctAnswer, q)
        ∧ (∀ correct, q.correctAnswer = some correct →
            ∃ m, Quiz.answerFollowUp (jsStrictEq label q.correctAnswer, q) stAtExpiry =
                some m
              ∧ strOccurs (jsShow q.explanation) m.text = true
              ∧ (jsStrictEq label q.correctAnswer = false →
                  m.text = "❌ <b>The correct answer is:</b>\n" ++
                    jsShow (Quiz.findCorrectChoice (q.choices.getD []) correct) ++
                    "\n\n<b>Explanation:</b>\n" ++ jsShow q.explanation
                  ∧ ∀ cc, Quiz.findCorrectChoice (q.choices.getD []) correct = some cc →
                      strOccurs cc m.text = true)
              ∧ m.dismissData = "done:" ++ Nat.repr q.id)
        ∧ (∀ mId, Quiz.handleDoneReading st mId = (st, [mId]))
        ∧ (∀ label2, Quiz.handleAnswer (Quiz.handleDoneReading st 0).1 questionId label2 =
            some (jsStrictEq label2 q.correctAnswer, q))) := by
  constructor
  · intro hget
    simp [Quiz.handleAnswer, hget]
  · intro q hget
    refine ⟨by simp [Quiz.handleAnswer, hget], ?_, fun mId => rfl, ?_⟩
    · intro correct hca
      rw [hca]
      refine ⟨⟨Quiz.explText (jsStrictEq label (some correct))
          (Quiz.findCorrectChoice (q.choices.getD []) correct) q.explanation,
          "done:" ++ Nat.repr q.id⟩, ?_, ?_, ?_, rfl⟩
      · simp only [Quiz.answerFollowUp, Quiz.explanationMessage, hca]
      · by_cases hc : jsStrictEq label (some correct) = true
        · simp only [Quiz.explText, hc, if_true]
          exact strOccurs_append_end _ _
        · simp only [Bool.not_eq_true] at hc
          simp only [Quiz.explText, hc, Bool.false_eq_true, if_false]
          exact strOccurs_append_end _ _
      · intro hwrong
        rw [hwrong]
        refine ⟨rfl, ?_⟩
        intro cc hcc
        simp only [Quiz.explText, Bool.false_eq_true, if_false, hcc, jsShow]
        rw [String.append_assoc]
        exact strOccurs_append_mid _ _ _
    · intro label2
      simp [Quiz.handleAnswer, Quiz.handleDoneReading, hget]

/-- Witness for C6 (amended) at a concrete input: an incorrect answer `"b"`
on the demo question. -/
theorem answer_flow_amended_witness :
    Quiz.handleAnswer demoQuizState 111 "b" =
      some (jsStrictEq "b" demoQuestion.correctAnswer, demoQuestion)
    ∧ (∃ m, Quiz.answerFollowUp (jsStrictEq "b" demoQuestion.correctAnswer, demoQuestion)
          demoQuizState = some m
        ∧ strOccurs (jsShow demoQuestion.explanation) m.text = true
        ∧ (jsStrictEq "b" demoQuestion.correctAnswer = false →
            m.text = "❌ <b>The correct answer is:</b>\n" ++
              jsShow (Quiz.findCorrectChoice (demoQuestion.choices.getD []) "a") ++
              "\n\n<b>Explanation:</b>\n" ++ jsShow demoQuestion.explanation
            ∧ ∀ cc, Quiz.findCorrectChoice (demoQuestion.choices.getD []) "a" = some cc →
                strOccurs cc m.text = true)
        ∧ m.dismissData = "done:" ++ Nat.repr demoQuestion.id)
    ∧ (∀ mId, Quiz.handleDoneReading demoQuizState mId = (demoQuizState, [mId])) := by
  have h := (answer_flow_amended demoQuizState demoQuizState 111 "b").2
    demoQuestion (by rfl)
  exact ⟨h.1, h.2.1 "a" (by rfl), h.2.2.1⟩

/-- **C7 counterexample.** A question answered, then deleted by its creator
before the delay expires: the follow-up still posts an explanation referencing
the removed question (its choice text, explanation, and `done:<id>` payload),
because the source uses the captured question and never re-checks the store. -/
theorem follow_up_after_delete_still_posts :
    Quiz.handleAnswer demoQuizState 111 "b" = some (false, demoQuestion)
    ∧ jsGet 111 ((Quiz.deleteQuestion 111 7 demoQuizState).2).questions = none
    ∧ Quiz.answerFollowUp (false, demoQuestion) (Quiz.deleteQuestion 111 7 demoQuizState).2 =
        some { text := "❌ <b>The correct answer is:</b>\na) Paris\n\n<b>Explanation:</b>\nBecause."
               dismissData := "done:111" } := by
  refine ⟨by decide, by decide, by decide⟩

/-- **C7 (amended).** The delayed follow-up does not consult the store: its
output depends only on the values captured at answer time, so even when the
question has been deleted before expiry (absent from the store), an
explanation referencing the deleted question is still produced. -/
theorem answerFollowUp_ignores_store (captured : Bool × Question)
    (st1 st2 : QuizState) :
    Quiz.answerFollowUp captured st1 = Quiz.answerFollowUp captured st2
    ∧ (∀ correct, captured.2.correctAnswer = some correct →
        jsGet captured.2.id st1.questions = none →
        ∃ m, Quiz.answerFollowUp captured st1 = some m ∧
          m.dismissData = "done:" ++ Nat.repr captured.2.id) := by
  refine ⟨rfl, ?_⟩
  intro correct hca _
  refine ⟨⟨Quiz.explText captured.1
      (Quiz.findCorrectChoice (captured.2.choices.getD []) correct)
      captured.2.explanation, "done:" ++ Nat.repr captured.2.id⟩, ?_, rfl⟩
  simp only [Quiz.answerFollowUp, Quiz.explanationMessage, hca]

/-- Witness for C7 (amended) at a concrete input: the demo question captured
as incorrectly answered, with the store emptied by the delete. -/
theorem answerFollowUp_ignores_store_witness :
    Quiz.answerFollowUp ((false, demoQuestion) : Bool × Question)
        (Quiz.deleteQuestion 111 7 demoQuizState).2 =
      Quiz.answerFollowUp (false, demoQuestion) emptyQuizState
    ∧ ∃ m, Quiz.answerFollowUp ((false, demoQuestion) : Bool × Question)
          (Quiz.deleteQuestion 111 7 demoQuizState).2 = some m ∧
        m.dismissData = "done:" ++ Nat.repr demoQuestion.id :=
  ⟨(answerFollowUp_ignores_store (false, demoQuestion)
      (Quiz.deleteQuestion 111 7 demoQuizState).2 emptyQuizState).1,
   (answerFollowUp_ignores_store (false, demoQuestion)
      (Quiz.deleteQuestion 111 7 demoQuizState).2 emptyQuizState).2
      "a" (by rfl) (by decide)⟩

/-! ## C9: scratch-message cleanup on publication and cancellation -/

lemma keysNodup_mapSnd {α β : Type} (f : Nat × α → β) (m : List (Nat × α))
    (h : keysNodup m) : keysNodup (m.map (fun p => (p.1, f p))) := by
  unfold keysNodup at *
  rw [List.map_map]
  exact h

/-- A publication store: user 1 about to publish (scratch message 10),
user 2 mid-authoring (scratch message 20). -/
def cexPubState : QuizState :=
  { questions := []
    userState :=
      [(1, { state := "WAITING_EXPLANATION"
             questionData := { choices := some ["a) X", "b) Y"], correctAnswer := some "a" }
             tempMessages := [10] }),
       (2, { state := "WAITING_CHOICES"
             questionData := {}
             tempMessages := [20] })] }

/-- A cancellation store: user 1 mid-authoring with scratch message 10. -/
def cexCancelState : QuizState :=
  { questions := []
    userState :=
      [(1, { state := "WAITING_CHOICES"
             questionData := {}
             tempMessages := [10] })] }

/-- **C9 counterexample.** When user 1 publishes, user 2's scratch message 20
is also deleted and user 2's scratch list is cleared (other users' drafts are
*not* left untouched); and on explicit cancellation only the clicked control
message is deleted — the recorded scratch message 10 is not. -/
theorem scratch_cleanup_cex :
    (20 : Nat) ∈ (Quiz.handleQuestionCreation 1 11 (.text "expl") none 999 12 cexPubState).deleted
    ∧ (∃ us, jsGet 2 (Quiz.handleQuestionCreation 1 11 (.text "expl") none 999 12
        cexPubState).state.userState = some us ∧ us.tempMessages = [])
    ∧ (handleCancelQuestion 1 99 cexCancelState).2 = [99]
    ∧ (10 : Nat) ∉ (handleCancelQuestion 1 99 cexCancelState).2 := by
  refine ⟨by decide,
    ⟨⟨"WAITING_CHOICES", ⟨none, none, none, none, none, none, none⟩, []⟩,
      by decide, by decide⟩,
    by decide, by decide⟩

/-- **C9 (amended).** On successful publication the scratch messages of
*every* user with an in-progress draft (the publisher's, including the
triggering message, and everyone else's) are deleted best-effort and all
scratch lists are cleared, and the publisher's draft is removed; on explicit
cancellation only the clicked control message is deleted — the draft is
discarded without deleting its recorded scratch messages. -/
theorem scratch_cleanup_amended (st : QuizState) (userId msgId botMsgId : Nat)
    (firstName : Option String) (now : Nat) (t : String)
    (hnd : keysNodup st.userState) :
    (∀ us, jsGet userId st.userState = some us → us.state = "WAITING_EXPLANATION" →
      (∀ u2 us2, jsGet u2 st.userState = some us2 →
        ∀ m ∈ us2.tempMessages,
          m ∈ (Quiz.handleQuestionCreation userId msgId (.text t) firstName now botMsgId st).deleted)
      ∧ msgId ∈ (Quiz.handleQuestionCreation userId msgId (.text t) firstName now botMsgId st).deleted
      ∧ (∀ p ∈ (Quiz.handleQuestionCreation userId msgId (.text t) firstName now botMsgId st).state.userState,
          p.2.tempMessages = ([] : List Nat))
      ∧ jsGet userId (Quiz.handleQuestionCreation userId msgId (.text t) firstName now botMsgId st).state.userState = none)
    ∧ (∀ clicked, handleCancelQuestion userId clicked st =
        ({ st with userState := jsDel userId st.userState }, [clicked])) := by
  constructor
  · intro us hget hst
    set us1 : UserState := { us with tempMessages := us.tempMessages ++ [msgId] } with hus1
    set st1 : QuizState :=
      { st with userState := jsSet userId us1 st.userState } with hst1
    have h1 : us1.state = "WAITING_EXPLANATION" := hst
    -- reduce the handler to the publish branch
    have hred : Quiz.handleQuestionCreation userId msgId (.text t) firstName now botMsgId st =
        Quiz.qcSwitch userId (some t) firstName now botMsgId us1 st1 := by
      simp [Quiz.handleQuestionCreation, hget, hus1, hst1]
    have hsw : Quiz.qcSwitch userId (some t) firstName now botMsgId us1 st1 =
        ⟨true,
         ⟨jsSet now (Quiz.publishedQuestion userId (some t) firstName now us1.questionData)
            (Quiz.cleanupMessages st1).1.questions,
          jsDel userId (Quiz.cleanupMessages st1).1.userState⟩,
         (Quiz.cleanupMessages st1).2⟩ := by
      simp [Quiz.qcSwitch, hst]
    rw [hred, hsw]
    have hdel : (Quiz.cleanupMessages st1).2 =
        (st1.userState.map (fun p => p.2.tempMessages.reverse)).flatten := rfl
    refine ⟨?_, ?_, ?_, ?_⟩
    · intro u2 us2 hget2 m hm
      show m ∈ (Quiz.cleanupMessages st1).2
      rw [hdel]
      by_cases hu : u2 = userId
      · subst hu
        rw [hget] at hget2
        obtain rfl : us = us2 := by injection hget2
        refine List.mem_flatten.mpr ⟨us1.tempMessages.reverse, ?_, ?_⟩
        · exact List.mem_map.mpr
            ⟨(u2, us1), jsGet_mem _ _ _ (jsGet_set_self u2 us1 st.userState), rfl⟩
        · simp [hus1, hm]
      · refine List.mem_flatten.mpr ⟨us2.tempMessages.reverse, ?_, by simpa using hm⟩
        have hget2' : jsGet u2 st1.userState = some us2 := by
          rw [hst1]
          simpa [jsGet_set_ne u2 userId us1 st.userState (Ne.symm hu)] using hget2
        exact List.mem_map.mpr ⟨(u2, us2), jsGet_mem _ _ _ hget2', rfl⟩
    · show msgId ∈ (Quiz.cleanupMessages st1).2
      rw [hdel]
      refine List.mem_flatten.mpr ⟨us1.tempMessages.reverse, ?_, by simp [hus1]⟩
      exact List.mem_map.mpr
        ⟨(userId, us1), jsGet_mem _ _ _ (jsGet_set_self userId us1 st.userState), rfl⟩
    · intro p hp
      have hp2 := mem_jsDel _ _ _ hp
      have hmem : p ∈ st1.userState.map
          (fun q => (q.1, { q.2 with tempMessages := ([] : List Nat) })) := hp2
      obtain ⟨q0, -, rfl⟩ := List.mem_map.mp hmem
      rfl
    · show jsGet userId (jsDel userId (Quiz.cleanupMessages st1).1.userState) = none
      apply jsGet_del_self
      exact keysNodup_mapSnd _ _ (keysNodup_set userId us1 st.userState hnd)
  · intro clicked
    rfl

/-- Witness for C9 (amended) at the concrete publication store. -/
theorem scratch_cleanup_amended_witness :
    ((10 : Nat) ∈ (Quiz.handleQuestionCreation 1 11 (.text "expl") none 999 12 cexPubState).deleted
      ∧ (20 : Nat) ∈ (Quiz.handleQuestionCreation 1 11 (.text "expl") none 999 12 cexPubState).deleted)
    ∧ (11 : Nat) ∈ (Quiz.handleQuestionCreation 1 11 (.text "expl") none 999 12 cexPubState).deleted
    ∧ jsGet 1 (Quiz.handleQuestionCreation 1 11 (.text "expl") none 999 12 cexPubState).state.userState = none
    ∧ handleCancelQuestion 1 99 cexPubState =
        ({ cexPubState with userState := jsDel 1 cexPubState.userState }, [99]) := by
  have h := scratch_cleanup_amended cexPubState 1 11 12 none 999 "expl"
    (by simp [cexPubState, keysNodup])
  have h1 := h.1 { state := "WAITING_EXPLANATION"
                   questionData := { choices := some ["a) X", "b) Y"], correctAnswer := some "a" }
                   tempMessages := [10] } (by rfl) rfl
  refine ⟨⟨?_, ?_⟩, h1.2.1, h1.2.2.2, h.2 99⟩
  · exact h1.1 1 _ (by rfl) 10 (by decide)
  · exact h1.1 2 _ (by rfl) 20 (by decide)

/-! ## C10: publish-step id assignment -/

/-- Two users both one step from publishing. -/
def cexTwoDrafts : QuizState :=
  { questions := []
    userState :=
      [(1, { state := "WAITING_EXPLANATION"
             questionData := { choices := some ["a) X", "b) Y"], correctAnswer := some "a" }
             tempMessages := [] }),
       (2, { state := "WAITING_EXPLANATION"
             questionData := { choices := some ["a) P", "b) Q"], correctAnswer := some "b" }
             tempMessages := [] })] }

/-- **C10 counterexample.** Ids come from `Date.now()`: two publish steps in
the same millisecond (both at 555) are assigned the *same* id — the first
publish stores a question by user 1 under id 555, the second stores user 2's
question under the same id 555, overwriting it, leaving a single stored
question. -/
theorem publish_same_millisecond_id_collision :
    (∃ q1, jsGet 555 (Quiz.handleQuestionCreation 1 11 (.text "e1") none 555 12
        cexTwoDrafts).state.questions = some q1 ∧ q1.creatorId = 1 ∧ q1.id = 555)
    ∧ (∃ q2, jsGet 555 (Quiz.handleQuestionCreation 2 21 (.text "e2") none 555 22
        (Quiz.handleQuestionCreation 1 11 (.text "e1") none 555 12
          cexTwoDrafts).state).state.questions = some q2 ∧ q2.creatorId = 2 ∧ q2.id = 555)
    ∧ (Quiz.handleQuestionCreation 2 21 (.text "e2") none 555 22
        (Quiz.handleQuestionCreation 1 11 (.text "e1") none 555 12
          cexTwoDrafts).state).state.questions.length = 1 := by
  refine ⟨⟨Quiz.publishedQuestion 1 (some "e1") none 555
      ⟨none, none, none, none, some ["a) X", "b) Y"], none, some "a"⟩, by decide, by decide, by decide⟩,
    ⟨Quiz.publishedQuestion 2 (some "e2") none 555
      ⟨none, none, none, none, some ["a) P", "b) Q"], none, some "b"⟩, by decide, by decide, by decide⟩,
    by decide⟩

lemma publish_effect (st : QuizState) (userId msgId botMsgId : Nat)
    (firstName : Option String) (now : Nat) (t : String) (us : UserState)
    (hget : jsGet userId st.userState = some us)
    (hst : us.state = "WAITING_EXPLANATION") :
    (Quiz.handleQuestionCreation userId msgId (.text t) firstName now botMsgId st).state.questions =
      jsSet now (Quiz.publishedQuestion userId (some t) firstName now us.questionData)
        st.questions
    ∧ (keysNodup st.userState →
        jsGet userId (Quiz.handleQuestionCreation userId msgId (.text t) firstName now
          botMsgId st).state.userState = none
        ∧ keysNodup (Quiz.handleQuestionCreation userId msgId (.text t) firstName now
            botMsgId st).state.userState) := by
  set us1 : UserState := { us with tempMessages := us.tempMessages ++ [msgId] } with hus1
  set st1 : QuizState :=
    { st with userState := jsSet userId us1 st.userState } with hst1
  have hred : Quiz.handleQuestionCreation userId msgId (.text t) firstName now botMsgId st =
      Quiz.qcSwitch userId (some t) firstName now botMsgId us1 st1 := by
    simp [Quiz.handleQuestionCreation, hget, hus1, hst1]
  have hsw : Quiz.qcSwitch userId (some t) firstName now botMsgId us1 st1 =
      ⟨true,
       ⟨jsSet now (Quiz.publishedQuestion userId (some t) firstName now us1.questionData)
          (Quiz.cleanupMessages st1).1.questions,
        jsDel userId (Quiz.cleanupMessages st1).1.userState⟩,
       (Quiz.cleanupMessages st1).2⟩ := by
    simp [Quiz.qcSwitch, hst]
  rw [hred, hsw]
  refine ⟨rfl, ?_⟩
  intro hnd
  constructor
  · show jsGet userId (jsDel userId (Quiz.cleanupMessages st1).1.userState) = none
    apply jsGet_del_self
    exact keysNodup_mapSnd _ _ (keysNodup_set userId us1 st.userState hnd)
  · show keysNodup (jsDel userId (Quiz.cleanupMessages st1).1.userState)
    apply keysNodup_del
    exact keysNodup_mapSnd _ _ (keysNodup_set userId us1 st.userState hnd)

/-- **C10 (amended).** Publish steps occurring at distinct `Date.now()`
millisecond values are assigned distinct ids; each publish stores the
Question under its id and removes the publishing user's draft.  (Two publish
steps within the same millisecond are assigned the same id, the second
overwriting the first.) -/
theorem publish_unique_ids_amended (st : QuizState)
    (u1 u2 msg1 msg2 bot1 bot2 : Nat) (f1 f2 : Option String)
    (now1 now2 : Nat) (t1 t2 : String)
    (hnd : keysNodup st.userState) (hne : now1 ≠ now2) :
    ∀ us1, jsGet u1 st.userState = some us1 → us1.state = "WAITING_EXPLANATION" →
      (∃ q1, jsGet now1 (Quiz.handleQuestionCreation u1 msg1 (.text t1) f1 now1 bot1
          st).state.questions = some q1 ∧ q1.id = now1 ∧ q1.creatorId = u1)
      ∧ jsGet u1 (Quiz.handleQuestionCreation u1 msg1 (.text t1) f1 now1 bot1
          st).state.userState = none
      ∧ (∀ us2, jsGet u2 (Quiz.handleQuestionCreation u1 msg1 (.text t1) f1 now1 bot1
            st).state.userState = some us2 → us2.state = "WAITING_EXPLANATION" →
          (∃ q1, jsGet now1 (Quiz.handleQuestionCreation u2 msg2 (.text t2) f2 now2 bot2
              (Quiz.handleQuestionCreation u1 msg1 (.text t1) f1 now1 bot1 st).state).state.questions =
              some q1 ∧ q1.id = now1 ∧ q1.creatorId = u1)
          ∧ (∃ q2, jsGet now2 (Quiz.handleQuestionCreation u2 msg2 (.text t2) f2 now2 bot2
              (Quiz.handleQuestionCreation u1 msg1 (.text t1) f1 now1 bot1 st).state).state.questions =
              some q2 ∧ q2.id = now2 ∧ q2.creatorId = u2)
          ∧ (∀ q1 q2 : Question, q1.id = now1 → q2.id = now2 → q1.id ≠ q2.id)) := by
  intro us1 hget1 hst1
  obtain ⟨hq1, hrest1⟩ := publish_effect st u1 msg1 bot1 f1 now1 t1 us1 hget1 hst1
  obtain ⟨hnone1, hnd1⟩ := hrest1 hnd
  refine ⟨⟨Quiz.publishedQuestion u1 (some t1) f1 now1 us1.questionData, ?_, rfl, rfl⟩,
    hnone1, ?_⟩
  · rw [hq1]
    exact jsGet_set_self _ _ _
  · intro us2 hget2 hst2
    obtain ⟨hq2, -⟩ := publish_effect _ u2 msg2 bot2 f2 now2 t2 us2 hget2 hst2
    refine ⟨⟨Quiz.publishedQuestion u1 (some t1) f1 now1 us1.questionData, ?_, rfl, rfl⟩,
      ⟨Quiz.publishedQuestion u2 (some t2) f2 now2 us2.questionData, ?_, rfl, rfl⟩, ?_⟩
    · rw [hq2, jsGet_set_ne now1 now2 _ _ (Ne.symm hne), hq1]
      exact jsGet_set_self _ _ _
    · rw [hq2]
      exact jsGet_set_self _ _ _
    · intro q1 q2 h1 h2
      rw [h1, h2]
      exact hne

/-- Witness for C10 (amended): the two-draft store published at milliseconds
555 then 666. -/
theorem publish_unique_ids_amended_witness :
    (∃ q1, jsGet 555 (Quiz.handleQuestionCreation 1 11 (.text "e1") none 555 12
        cexTwoDrafts).state.questions = some q1 ∧ q1.id = 555 ∧ q1.creatorId = 1)
    ∧ jsGet 1 (Quiz.handleQuestionCreation 1 11 (.text "e1") none 555 12
        cexTwoDrafts).state.userState = none
    ∧ (∃ q1, jsGet 555 (Quiz.handleQuestionCreation 2 21 (.text "e2") none 666 22
        (Quiz.handleQuestionCreation 1 11 (.text "e1") none 555 12
          cexTwoDrafts).state).state.questions = some q1 ∧ q1.id = 555 ∧ q1.creatorId = 1)
    ∧ (∃ q2, jsGet 666 (Quiz.handleQuestionCreation 2 21 (.text "e2") none 666 22
        (Quiz.handleQuestionCreation 1 11 (.text "e1") none 555 12
          cexTwoDrafts).state).state.questions = some q2 ∧ q2.id = 666 ∧ q2.creatorId = 2) := by
  have h := publish_unique_ids_amended cexTwoDrafts 1 2 11 21 12 22 none none 555 666
    "e1" "e2" (by simp [cexTwoDrafts, keysNodup]) (by decide)
    { state := "WAITING_EXPLANATION"
      questionData := { choices := some ["a) X", "b) Y"], correctAnswer := some "a" }
      tempMessages := [] } (by rfl) rfl
  have h2 := h.2.2
    { state := "WAITING_EXPLANATION"
      questionData := { choices := some ["a) P", "b) Q"], correctAnswer := some "b" }
      tempMessages := [] } (by decide) rfl
  exact ⟨h.1, h.2.1, h2.1, h2.2.1⟩

/-! ## C3: choice-count validation and the published-question invariant -/

/-- One authoring-pipeline input, as routed by the dispatcher: a button
click (`select_subject`, `confirm_/retry_choices`, `confirm_/retry_answer`,
`cancel_question`, `delete_question`, `create_question`/`start_new_question`)
or a free-text/photo message. -/
inductive QOp where
  | startCreation (userId : Nat)
  | selectSubject (userId : Nat) (subject : String)
  | message (userId msgId : Nat) (content : Quiz.MsgContent)
      (firstName : Option String) (now botMsgId : Nat)
  | confirmChoices (userId botMsgId : Nat)
  | retryChoices (userId botMsgId : Nat)
  | confirmAnswer (userId botMsgId : Nat)
  | retryAnswer (userId botMsgId : Nat)
  | cancel (userId clickedMsgId : Nat)
  | deleteQ (questionId userId : Nat)

/-- Apply one authoring input to the quiz store (the session side of
`select_subject` is irrelevant here). -/
def applyQOp (st : QuizState) : QOp → QuizState
  | .startCreation u => Quiz.startQuestionCreation u st
  | .selectSubject u subj => (handleSelectSubject u subj st []).1
  | .message u m c f now b => (Quiz.handleQuestionCreation u m c f now b st).state
  | .confirmChoices u b => (Quiz.handleConfirmChoices u b st).2
  | .retryChoices u b => (Quiz.handleRetryChoices u b st).2
  | .confirmAnswer u b => (Quiz.handleConfirmAnswer u b st).2
  | .retryAnswer u b => (Quiz.handleRetryAnswer u b st).2
  | .cancel u m => (handleCancelQuestion u m st).1
  | .deleteQ q u => (Quiz.deleteQuestion q u st).2

/-- Apply a sequence of authoring inputs, oldest first. -/
def applyQOps (st : QuizState) (ops : List QOp) : QuizState :=
  ops.foldl applyQOp st

/-- The five labels the authoring code can ever produce for an answer. -/
def labels5 : List String := ["a", "b", "c", "d", "e"]

/-- An optional label, constrained to `a`–`e` when present. -/
def optLabel (o : Option String) : Prop := ∀ a, o = some a → a ∈ labels5

/-- An optional choice list, constrained to at most five entries. -/
def optLenLe5 (o : Option (List String)) : Prop := ∀ l, o = some l → l.length ≤ 5

/-- The draft-field invariant maintained by every authoring input. -/
def qdInv (qd : QuestionData) : Prop :=
  optLenLe5 qd.tempChoices ∧ optLenLe5 qd.choices ∧
  optLabel qd.tempAnswer ∧ optLabel qd.correctAnswer

/-- The published-question invariant: at most five choices, answer label in
`a`–`e`. -/
def questionInv (q : Question) : Prop :=
  optLenLe5 q.choices ∧ optLabel q.correctAnswer

/-- The store invariant over drafts and published questions. -/
def quizInv (st : QuizState) : Prop :=
  (∀ p ∈ st.userState, qdInv p.2.questionData) ∧
  (∀ p ∈ st.questions, questionInv p.2)

lemma formatChoices_length_le (raw : List String) :
    (Quiz.formatChoices raw).length ≤ raw.length := by
  unfold Quiz.formatChoices
  have h1 : ((raw.filter (fun choice => jsTrim choice != "")).mapIdx
      (fun index choice => fromCharCode (97 + index) ++ ") " ++ jsTrim choice)).length =
      (raw.filter (fun choice => jsTrim choice != "")).length := by
    simp
  rw [h1]
  exact List.length_filter_le _ _

lemma validAnswers_subset_labels5 (n : Nat) (hn : n ≤ 5) :
    ∀ a ∈ Quiz.validAnswers n, a ∈ labels5 := by
  intro a ha
  simp only [Quiz.validAnswers, List.mem_map, List.mem_range] at ha
  obtain ⟨i, hi, rfl⟩ := ha
  have hi5 : i < 5 := lt_of_lt_of_le hi hn
  interval_cases i <;> decide

lemma quizInv_setUser (st : QuizState) (u : Nat) (us2 : UserState)
    (h : quizInv st) (hqd : qdInv us2.questionData) :
    quizInv { st with userState := jsSet u us2 st.userState } := by
  refine ⟨?_, h.2⟩
  intro p hp
  rcases mem_jsSet _ _ _ _ hp with h1 | h1
  · rw [h1]
    exact hqd
  · exact h.1 p h1

lemma choices_getD_length_le (qd : QuestionData) (hqd : qdInv qd) :
    (qd.choices.getD []).length ≤ 5 := by
  cases hch : qd.choices with
  | none => simp
  | some l =>
    have := hqd.2.1 l hch
    simpa [hch] using this

lemma qcSwitch_inv (userId : Nat) (textOf firstName : Option String)
    (now botMsgId : Nat) (us : UserState) (st : QuizState)
    (hqd : qdInv us.questionData) (h : quizInv st) :
    quizInv (Quiz.qcSwitch userId textOf firstName now botMsgId us st).state := by
  by_cases h1 : us.state = "WAITING_QUESTION"
  · cases textOf with
    | none => simpa [Quiz.qcSwitch, h1] using h
    | some t =>
      simp only [Quiz.qcSwitch, h1, if_pos]
      exact quizInv_setUser _ _ _ h ⟨hqd.1, hqd.2.1, hqd.2.2.1, hqd.2.2.2⟩
  by_cases h2 : us.state = "WAITING_CHOICES"
  · cases textOf with
    | none => simpa [Quiz.qcSwitch, h1, h2] using h
    | some t =>
      by_cases hlen : (jsSplitNL t).length < 2 ∨ 5 < (jsSplitNL t).length
      · simp only [Quiz.qcSwitch, if_neg h1, if_pos h2, if_pos hlen]
        exact quizInv_setUser _ _ _ h hqd
      · simp only [Quiz.qcSwitch, if_neg h1, if_pos h2, if_neg hlen]
        refine quizInv_setUser _ _ _ h ⟨?_, hqd.2.1, hqd.2.2.1, hqd.2.2.2⟩
        intro l hl
        obtain rfl : Quiz.formatChoices (jsSplitNL t) = l := by injection hl
        have hle : (jsSplitNL t).length ≤ 5 := by omega
        exact le_trans (formatChoices_length_le _) hle
  by_cases h3 : us.state = "WAITING_CORRECT_ANSWER"
  · cases textOf with
    | none => simpa [Quiz.qcSwitch, h1, h2, h3] using h
    | some t =>
      by_cases hval : (Quiz.validAnswers (us.questionData.choices.getD []).length).contains
          (jsToLower t)
      · simp only [Quiz.qcSwitch, if_neg h1, if_neg h2, if_pos h3, if_pos hval]
        refine quizInv_setUser _ _ _ h ⟨hqd.1, hqd.2.1, ?_, hqd.2.2.2⟩
        intro a ha
        obtain rfl : jsToLower t = a := by injection ha
        have hmem : jsToLower t ∈
            Quiz.validAnswers (us.questionData.choices.getD []).length := by
          simpa using hval
        exact validAnswers_subset_labels5 _ (choices_getD_length_le _ hqd) _ hmem
      · simp only [Quiz.qcSwitch, if_neg h1, if_neg h2, if_pos h3, if_neg hval]
        exact quizInv_setUser _ _ _ h hqd
  by_cases h4 : us.state = "WAITING_EXPLANATION"
  · simp only [Quiz.qcSwitch, if_neg h1, if_neg h2, if_neg h3, if_pos h4]
    constructor
    · intro p hp
      have hp2 := mem_jsDel _ _ _ hp
      obtain ⟨q0, hq0, rfl⟩ := List.mem_map.mp hp2
      exact h.1 q0 hq0
    · intro p hp
      rcases mem_jsSet _ _ _ _ hp with he | he
      · rw [he]
        exact ⟨hqd.2.1, hqd.2.2.2⟩
      · exact h.2 p he
  · simp only [Quiz.qcSwitch, if_neg h1, if_neg h2, if_neg h3, if_neg h4]
    exact h

lemma photoBranch_inv (userId : Nat) (caption : Option String) (botMsgId : Nat)
    (us : UserState) (st : QuizState)
    (hqd : qdInv us.questionData) (h : quizInv st) :
    quizInv (Quiz.photoBranch userId caption botMsgId us st).state := by
  by_cases hcap : strTruthy caption = true
  · simp only [Quiz.photoBranch, hcap, if_pos]
    exact quizInv_setUser _ _ _ h ⟨hqd.1, hqd.2.1, hqd.2.2.1, hqd.2.2.2⟩
  · simp only [Bool.not_eq_true] at hcap
    simp only [Quiz.photoBranch, hcap, Bool.false_eq_true, if_false]
    exact quizInv_setUser _ _ _ h ⟨hqd.1, hqd.2.1, hqd.2.2.1, hqd.2.2.2⟩

lemma handleQuestionCreation_inv (u m : Nat) (c : Quiz.MsgContent)
    (f : Option String) (now b : Nat) (st : QuizState) (h : quizInv st) :
    quizInv (Quiz.handleQuestionCreation u m c f now b st).state := by
  cases hget : jsGet u st.userState with
  | none =>
    cases c <;> simpa [Quiz.handleQuestionCreation, hget] using h
  | some us0 =>
    have hqd0 : qdInv us0.questionData := h.1 (u, us0) (jsGet_mem _ _ _ hget)
    set us1 : UserState := { us0 with tempMessages := us0.tempMessages ++ [m] } with hus1
    set st1 : QuizState := { st with userState := jsSet u us1 st.userState } with hst1
    have h1 : quizInv st1 := by
      rw [hst1]
      exact quizInv_setUser _ _ _ h hqd0
    cases c with
    | text t =>
      have hred : Quiz.handleQuestionCreation u m (.text t) f now b st =
          Quiz.qcSwitch u (some t) f now b us1 st1 := by
        simp [Quiz.handleQuestionCreation, hget, hus1, hst1]
      rw [hred]
      exact qcSwitch_inv _ _ _ _ _ _ _ hqd0 h1
    | photo cap =>
      by_cases hq : us0.state = "WAITING_QUESTION"
      · have hred : Quiz.handleQuestionCreation u m (.photo cap) f now b st =
            Quiz.photoBranch u cap b us1 st1 := by
          simp [Quiz.handleQuestionCreation, hget, hus1, hst1, hq]
        rw [hred]
        exact photoBranch_inv _ _ _ _ _ hqd0 h1
      · have hred : Quiz.handleQuestionCreation u m (.photo cap) f now b st =
            Quiz.qcSwitch u none f now b us1 st1 := by
          simp [Quiz.handleQuestionCreation, hget, hus1, hst1, hq]
        rw [hred]
        exact qcSwitch_inv _ _ _ _ _ _ _ hqd0 h1

lemma applyQOp_inv (st : QuizState) (op : QOp) (h : quizInv st) :
    quizInv (applyQOp st op) := by
  cases op with
  | startCreation u =>
    simp only [applyQOp, Quiz.startQuestionCreation]
    refine quizInv_setUser _ _ _ h ?_
    exact ⟨fun l hl => Option.noConfusion hl, fun l hl => Option.noConfusion hl,
      fun a ha => Option.noConfusion ha, fun a ha => Option.noConfusion ha⟩
  | selectSubject u subj =>
    cases hget : jsGet u st.userState with
    | none => simpa [applyQOp, handleSelectSubject, hget] using h
    | some us =>
      have hqd : qdInv us.questionData := h.1 (u, us) (jsGet_mem _ _ _ hget)
      by_cases hws : us.state = "WAITING_SUBJECT"
      · simp only [applyQOp, handleSelectSubject, hget, if_pos hws]
        exact quizInv_setUser _ _ _ h ⟨hqd.1, hqd.2.1, hqd.2.2.1, hqd.2.2.2⟩
      · simpa [applyQOp, handleSelectSubject, hget, hws] using h
  | message u m c f now b =>
    exact handleQuestionCreation_inv u m c f now b st h
  | confirmChoices u b =>
    cases hget : jsGet u st.userState with
    | none => simpa [applyQOp, Quiz.handleConfirmChoices, hget] using h
    | some us =>
      have hqd : qdInv us.questionData := h.1 (u, us) (jsGet_mem _ _ _ hget)
      cases htc : us.questionData.tempChoices with
      | none => simpa [applyQOp, Quiz.handleConfirmChoices, hget, htc] using h
      | some tc =>
        simp only [applyQOp, Quiz.handleConfirmChoices, hget, htc]
        refine quizInv_setUser _ _ _ h
          ⟨fun l hl => Option.noConfusion hl, ?_, hqd.2.2.1, hqd.2.2.2⟩
        intro l hl
        obtain rfl : tc = l := by injection hl
        exact hqd.1 tc htc
  | retryChoices u b =>
    cases hget : jsGet u st.userState with
    | none => simpa [applyQOp, Quiz.handleRetryChoices, hget] using h
    | some us =>
      have hqd : qdInv us.questionData := h.1 (u, us) (jsGet_mem _ _ _ hget)
      simp only [applyQOp, Quiz.handleRetryChoices, hget]
      exact quizInv_setUser _ _ _ h
        ⟨fun l hl => Option.noConfusion hl, hqd.2.1, hqd.2.2.1, hqd.2.2.2⟩
  | confirmAnswer u b =>
    cases hget : jsGet u st.userState with
    | none => simpa [applyQOp, Quiz.handleConfirmAnswer, hget] using h
    | some us =>
      have hqd : qdInv us.questionData := h.1 (u, us) (jsGet_mem _ _ _ hget)
      by_cases hta : strTruthy us.questionData.tempAnswer = true
      · simp only [applyQOp, Quiz.handleConfirmAnswer, hget, hta, if_pos]
        exact quizInv_setUser _ _ _ h
          ⟨hqd.1, hqd.2.1, fun a ha => Option.noConfusion ha, hqd.2.2.1⟩
      · simp only [Bool.not_eq_true] at hta
        simpa [applyQOp, Quiz.handleConfirmAnswer, hget, hta] using h
  | retryAnswer u b =>
    cases hget : jsGet u st.userState with
    | none => simpa [applyQOp, Quiz.handleRetryAnswer, hget] using h
    | some us =>
      have hqd : qdInv us.questionData := h.1 (u, us) (jsGet_mem _ _ _ hget)
      simp only [applyQOp, Quiz.handleRetryAnswer, hget]
      exact quizInv_setUser _ _ _ h
        ⟨hqd.1, hqd.2.1, fun a ha => Option.noConfusion ha, hqd.2.2.2⟩
  | cancel u mId =>
    refine ⟨?_, h.2⟩
    intro p hp
    exact h.1 p (mem_jsDel _ _ _ hp)
  | deleteQ qId u =>
    cases hget : jsGet qId st.questions with
    | none => simpa [applyQOp, Quiz.deleteQuestion, hget] using h
    | some q =>
      by_cases hcr : q.creatorId = u
      · simp only [applyQOp, Quiz.deleteQuestion, hget, if_pos hcr]
        refine ⟨h.1, ?_⟩
        intro p hp
        exact h.2 p (mem_jsDel _ _ _ hp)
      · simpa [applyQOp, Quiz.deleteQuestion, hget, hcr] using h

lemma applyQOps_inv (ops : List QOp) :
    ∀ st : QuizState, quizInv st → quizInv (applyQOps st ops) := by
  induction ops with
  | nil =>
    intro st h
    simpa [applyQOps] using h
  | cons op rest ih =>
    intro st h
    have h1 := applyQOp_inv st op h
    have h2 := ih (applyQOp st op) h1
    simpa [applyQOps] using h2

/-- A full authoring run in which the choice input `"Paris\n\n"` (three raw
lines, one non-empty) is accepted and published. -/
def cexTrace1 : List QOp :=
  [.startCreation 1, .selectSubject 1 "Science",
   .message 1 100 (.text "Capital?") (some "Ann") 0 101,
   .message 1 102 (.text "Paris\n\n") (some "Ann") 0 103,
   .confirmChoices 1 104,
   .message 1 105 (.text "a") (some "Ann") 0 106,
   .confirmAnswer 1 107,
   .message 1 108 (.text "Because.") (some "Ann") 555 109]

/-- A run in which the answer `c` is chosen while three choices exist, the
choices are then re-entered (two entries) via the retry button, and the stale
`confirm_answer` click publishes `correctAnswer = "c"` over two choices. -/
def cexTrace2 : List QOp :=
  [.startCreation 2, .selectSubject 2 "Math",
   .message 2 200 (.text "Q?") none 0 201,
   .message 2 202 (.text "A\nB\nC") none 0 203,
   .confirmChoices 2 204,
   .message 2 205 (.text "c") none 0 206,
   .retryChoices 2 207,
   .message 2 208 (.text "X\nY") none 0 209,
   .confirmChoices 2 210,
   .confirmAnswer 2 211,
   .message 2 212 (.text "expl") none 777 213]

/-- **C3 counterexample.** The choice validation counts *raw* lines, not
non-empty ones: `"Paris\n\n"` has three raw lines but one non-empty line, is
accepted, and is published as a one-choice question; and a stale
`confirm_answer` after re-entering choices publishes a `correctAnswerLabel`
(`"c"`) that is not the label of any published choice. -/
theorem choice_pipeline_cex :
    ((jsSplitNL "Paris\n\n").length = 3
      ∧ (Quiz.formatChoices (jsSplitNL "Paris\n\n")).length = 1)
    ∧ (∃ q, jsGet 555 (applyQOps emptyQuizState cexTrace1).questions = some q ∧
        q.choices = some ["a) Paris"])
    ∧ (∃ q, jsGet 777 (applyQOps emptyQuizState cexTrace2).questions = some q ∧
        q.choices = some ["a) X", "b) Y"] ∧ q.correctAnswer = some "c" ∧
        "c" ∉ (q.choices.getD []).map (fun choice => String.mk (choice.data.take 1))) := by
  refine ⟨⟨by decide, by decide⟩,
    ⟨⟨some "Science", some "Capital?", none, some ["a) Paris"], some "a",
        some "Because.", 1, "Ann", 555⟩, by decide, by decide⟩,
    ⟨⟨some "Math", some "Q?", none, some ["a) X", "b) Y"], some "c",
        some "expl", 2, "User2", 777⟩, by decide, by decide, by decide, by decide⟩⟩

/-- **C3 (amended).** Choice input is accepted exactly when the *raw* line
count of the message (blank lines included) is between 2 and 5; the retained
choices are the non-empty lines, labeled in order, so publication with fewer
than 2 choices is reachable.  Still, no reachable state holds a draft or a
published question with more than 5 choices, and every stored
`correctAnswerLabel` is one of `a`–`e` (though it may not match any published
choice after a stale re-entry, as the counterexample shows). -/
theorem choice_pipeline_amended :
    (∀ (userId msgId botMsgId : Nat) (firstName : Option String) (now : Nat)
       (t : String) (st : QuizState) (us : UserState),
      jsGet userId st.userState = some us → us.state = "WAITING_CHOICES" →
      ((jsSplitNL t).length < 2 ∨ 5 < (jsSplitNL t).length →
        ∃ us2, jsGet userId (Quiz.handleQuestionCreation userId msgId (.text t)
            firstName now botMsgId st).state.userState = some us2 ∧
          us2.questionData = us.questionData)
      ∧ (2 ≤ (jsSplitNL t).length ∧ (jsSplitNL t).length ≤ 5 →
        ∃ us2, jsGet userId (Quiz.handleQuestionCreation userId msgId (.text t)
            firstName now botMsgId st).state.userState = some us2 ∧
          us2.questionData = { us.questionData with
            tempChoices := some (Quiz.formatChoices (jsSplitNL t)) }))
    ∧ (∀ ops : List QOp, quizInv (applyQOps emptyQuizState ops)) := by
  constructor
  · intro userId msgId botMsgId firstName now t st us hget hst
    set us1 : UserState := { us with tempMessages := us.tempMessages ++ [msgId] } with hus1
    set st1 : QuizState := { st with userState := jsSet userId us1 st.userState } with hst1
    have hred : Quiz.handleQuestionCreation userId msgId (.text t) firstName now botMsgId st =
        Quiz.qcSwitch userId (some t) firstName now botMsgId us1 st1 := by
      simp [Quiz.handleQuestionCreation, hget, hus1, hst1]
    constructor
    · intro hlen
      rw [hred]
      simp only [Quiz.qcSwitch, hst]
      simp only [reduceIte, if_pos hlen]
      exact ⟨_, jsGet_set_self _ _ _, rfl⟩
    · intro hlen
      have hlen2 : ¬ ((jsSplitNL t).length < 2 ∨ 5 < (jsSplitNL t).length) := by omega
      rw [hred]
      simp only [Quiz.qcSwitch, hst]
      simp only [reduceIte, if_neg hlen2]
      exact ⟨_, jsGet_set_self _ _ _, rfl⟩
  · intro ops
    refine applyQOps_inv ops emptyQuizState ⟨?_, ?_⟩ <;> simp [emptyQuizState]

/-- Witness for C3 (amended) at concrete inputs: the accepted `"Paris\n\n"`
input, a rejected single-line input, and the invariant on the published
counterexample run. -/
theorem choice_pipeline_amended_witness :
    (∃ us2, jsGet 1 (Quiz.handleQuestionCreation 1 102 (.text "Paris")
        (some "Ann") 0 103 (applyQOps emptyQuizState (cexTrace1.take 3))).state.userState =
        some us2 ∧
      us2.questionData =
        ({ subject := some "Science", question := some "Capital?" } : QuestionData))
    ∧ (∃ us2, jsGet 1 (Quiz.handleQuestionCreation 1 102 (.text "Paris\n\n")
        (some "Ann") 0 103 (applyQOps emptyQuizState (cexTrace1.take 3))).state.userState =
        some us2 ∧
      us2.questionData =
        ({ subject := some "Science", question := some "Capital?",
           tempChoices := some (Quiz.formatChoices (jsSplitNL "Paris\n\n")) } : QuestionData))
    ∧ quizInv (applyQOps emptyQuizState cexTrace1) := by
  have h := choice_pipeline_amended
  have hw := h.1 1 102 103 (some "Ann") 0 "Paris"
    (applyQOps emptyQuizState (cexTrace1.take 3))
    ⟨"WAITING_CHOICES", { subject := some "Science", question := some "Capital?" }, [100, 101]⟩
    (by decide) rfl
  have hv := h.1 1 102 103 (some "Ann") 0 "Paris\n\n"
    (applyQOps emptyQuizState (cexTrace1.take 3))
    ⟨"WAITING_CHOICES", { subject := some "Science", question := some "Capital?" }, [100, 101]⟩
    (by decide) rfl
  exact ⟨hw.1 (by decide), hv.2 (by decide), h.2 cexTrace1⟩

end StudyBot
